import Mathlib

/-!
Verification of the medical-chatbot intake service (`app.py`, `llm_analyzer.py`).

The Python source is shallowly embedded: pure string manipulation becomes
functions on `List Char` / `String`, decoded JSON values become the inductive
type `Json`, Python exceptions become `Except PyErr`, and the in-memory patient
store becomes an explicit `StoreState` threaded through the route handler.
The external LLM collaborator and `json.loads` are opaque to the repository, so
they enter as parameters (`llm : Except PyErr String`,
`decode : String → Except PyErr Json`) quantified over in the theorems.
-/

set_option maxRecDepth 4096

/-! ## Python character predicates

`str.strip`, `str.lower` and `str.isprintable` from the Python standard
library, modelled over the Basic Latin and Latin-1 ranges: the whitespace set
is ASCII whitespace plus NEL and NBSP, and a character is printable unless it
is a C0/C1 control character, DEL, NBSP or the soft hyphen. -/

def pyIsSpace (c : Char) : Bool :=
  c.toNat = 0x20 || c.toNat = 0x9 || c.toNat = 0xa || c.toNat = 0xd ||
  c.toNat = 0xb || c.toNat = 0xc || c.toNat = 0x85 || c.toNat = 0xa0

def pyIsPrintable (c : Char) : Bool :=
  !(c.toNat < 0x20 || (0x7f ≤ c.toNat && c.toNat ≤ 0xa0) || c.toNat = 0xad)

def pyToLower (c : Char) : Char :=
  if 65 ≤ c.toNat ∧ c.toNat ≤ 90 then Char.ofNat (c.toNat + 32) else c

/-- Python `str.strip()` on the underlying character list: drop leading and
trailing whitespace. -/
def pyStrip (l : List Char) : List Char :=
  ((l.dropWhile pyIsSpace).reverse.dropWhile pyIsSpace).reverse

/-- Python `str.strip()` on strings. -/
def pyStripStr (s : String) : String :=
  ⟨pyStrip s.data⟩

/-! ## Text Normalizer (`clean_response_text`, identical in both files) -/

def fenceOpen : List Char := "```json".data

def fenceClose : List Char := "```".data

/-- `clean_response_text` from `llm_analyzer.py` lines 14–24 (the copy in
`app.py` lines 20–30 is character-for-character identical), working on the
character list: strip, drop a leading case-insensitive ```` ```json ````
marker, drop a trailing ```` ``` ```` marker, then keep only printable
characters. -/
def cleanChars (l : List Char) : List Char :=
  let t0 := pyStrip l
  let t1 := if fenceOpen.isPrefixOf (t0.map pyToLower) then pyStrip (t0.drop 7) else t0
  let t2 := if fenceClose.isSuffixOf t1 then pyStrip (t1.take (t1.length - 3)) else t1
  t2.filter pyIsPrintable

def clean_response_text (s : String) : String :=
  ⟨cleanChars s.data⟩

/-! ## Decoded JSON values -/

/-- A decoded JSON value as produced by `json.loads`: the Python data the
analyzer functions manipulate. Objects are association lists in insertion
order (Python 3 `dict`s preserve it). -/
inductive Json where
  | null : Json
  | bool (b : Bool) : Json
  | num (n : Int) : Json
  | str (s : String) : Json
  | arr (xs : List Json) : Json
  | obj (kvs : List (String × Json)) : Json

/-- Python truthiness of a decoded JSON value. -/
def Json.truthy : Json → Bool
  | .null => false
  | .bool b => b
  | .num n => n != 0
  | .str s => s != ""
  | .arr xs => !xs.isEmpty
  | .obj kvs => !kvs.isEmpty

def Json.isObj : Json → Bool
  | .obj _ => true
  | _ => false

/-- Pure association-list lookup (first binding wins, as in a Python dict
without duplicate keys). -/
def lookupKey (kvs : List (String × Json)) (k : String) : Option Json :=
  (kvs.find? (fun kv => kv.1 == k)).map (·.2)

/-- Lookup of a key on a JSON value known to be an object. -/
def Json.lookup : Json → String → Option Json
  | .obj kvs, k => lookupKey kvs k
  | _, _ => none

/-- Python exceptions relevant to this code base. -/
inductive PyErr where
  | attributeError : PyErr
  | typeError : PyErr
  | keyError : PyErr
deriving DecidableEq, Repr

/-! ## Python operations on decoded values

Each primitive returns `Except PyErr _`: the error constructor records the
exception Python raises on that operand type. -/

mutual

/-- Python `==` between decoded JSON values: numbers and booleans compare by
numeric value (`True == 1`), strings by content, lists elementwise, dicts by
key set and per-key value. -/
def pyEq : Json → Json → Bool
  | .null, .null => true
  | .bool a, .bool b => a == b
  | .bool a, .num m => (if a then (1 : Int) else 0) == m
  | .num n, .bool b => n == (if b then (1 : Int) else 0)
  | .num n, .num m => n == m
  | .str s, .str t => s == t
  | .arr xs, .arr ys => pyEqList xs ys
  | .obj a, .obj b => a.length == b.length && pyEqFields a b
  | _, _ => false
termination_by a b => sizeOf a + sizeOf b
decreasing_by
  all_goals simp_wf <;> omega

/-- Python `==` between decoded JSON lists, elementwise. -/
def pyEqList : List Json → List Json → Bool
  | [], [] => true
  | x :: xs, y :: ys => pyEq x y && pyEqList xs ys
  | _, _ => false
termination_by a b => sizeOf a + sizeOf b
decreasing_by
  all_goals simp_wf <;> omega

/-- Python `==` between dict contents: every binding of `a` matches a binding
of `b` with `==`-equal value (combined with a length check above, this is
dict equality for duplicate-free association lists). -/
def pyEqFields (a b : List (String × Json)) : Bool :=
  match a with
  | [] => true
  | (k, v) :: rest =>
    (match h : b.find? (fun kv => kv.1 == k) with
     | some kv => pyEq v kv.2
     | none => false) && pyEqFields rest b
termination_by sizeOf a + sizeOf b
decreasing_by
  all_goals simp_wf
  all_goals try omega
  all_goals
    (have hmem := List.mem_of_find?_eq_some h
     have hsz := List.sizeOf_lt_of_mem hmem
     cases kv with
     | mk k2 v2 => simp at hsz ⊢; omega)

end

/-- Python `container.get(key, default)`: a `dict` method, so any non-mapping
receiver raises `AttributeError`. -/
def pyGet (container : Json) (k : String) (dflt : Json) : Except PyErr Json :=
  match container with
  | .obj kvs => .ok ((lookupKey kvs k).getD dflt)
  | _ => .error .attributeError

/-- Python `container[key]` with a string key: key lookup on a `dict`
(`KeyError` when absent), `TypeError` on any other receiver. -/
def pySubscript (container : Json) (k : String) : Except PyErr Json :=
  match container with
  | .obj kvs =>
    match lookupKey kvs k with
    | some v => .ok v
    | none => .error .keyError
  | _ => .error .typeError

/-- `needle` occurs as a contiguous run inside `hay` (Python `in` on `str`). -/
def strContains (hay needle : List Char) : Bool :=
  match hay with
  | [] => needle.isEmpty
  | _ :: t => needle.isPrefixOf hay || strContains t needle

/-- Python `key in container` for a string key: key test on a `dict`,
substring test on a `str`, elementwise `==` on a `list`, `TypeError` on
non-iterable receivers. -/
def pyContains (container : Json) (k : String) : Except PyErr Bool :=
  match container with
  | .obj kvs => .ok (kvs.any (fun kv => kv.1 == k))
  | .str s => .ok (strContains s.data k.data)
  | .arr xs => .ok (xs.any (fun x => pyEq (.str k) x))
  | _ => .error .typeError

/-- Item assignment on an association list in insertion order: replace the
binding of `k` if present, otherwise append it (Python `dict` assignment,
shared between string-keyed records and the integer-keyed patient map). -/
def assocSet [BEq κ] (kvs : List (κ × α)) (k : κ) (v : α) : List (κ × α) :=
  if kvs.any (fun kv => kv.1 == k) then
    kvs.map (fun kv => if kv.1 == k then (k, v) else kv)
  else
    kvs ++ [(k, v)]

/-- Python `dict` item assignment for JSON objects. -/
def objSet (kvs : List (String × Json)) (k : String) (v : Json) : List (String × Json) :=
  assocSet kvs k v

/-- Python `container[key] = value` with a string key: item assignment is
only supported by `dict`s here (`str`/`list`/scalars raise `TypeError`). -/
def pySetItem (container : Json) (k : String) (v : Json) : Except PyErr Json :=
  match container with
  | .obj kvs => .ok (.obj (objSet kvs k v))
  | _ => .error .typeError

/-! ## Schema Sanitizer (`sanitize`, `llm_analyzer.py` lines 79–84)

`sanitize(data, defaults)` recurses on the template `defaults`.  When the
template is a dict it evaluates `data.get(key, "")` — an `AttributeError`
when `data` is not a dict.  When the template is a scalar it evaluates
`data if data and not isinstance(data, str) or data.strip() else ""`:
`and` binds tighter than `or`, so a falsy non-string reaches `data.strip()`
and raises `AttributeError`. -/

/-- The receiving end of `data.get(key, "")` inside the dict branch. -/
def dictGet (kvs : List (String × Json)) (k : String) : Json :=
  (lookupKey kvs k).getD (.str "")

mutual

/-- `sanitize` from `analyze_personal_info` (`llm_analyzer.py` lines 79–84). -/
def sanitize (data defaults : Json) : Except PyErr Json :=
  match defaults with
  | .obj tmpl =>
    match data with
    | .obj kvs => (sanitizeFields kvs tmpl).map Json.obj
    | _ => .error .attributeError
  | .arr _ =>
    match data with
    | .arr _ => .ok data
    | _ => .ok (.arr [])
  | _ =>
    match data with
    | .str s => .ok (if pyStripStr s != "" then .str s else .str "")
    | d => if d.truthy then .ok d else .error .attributeError
termination_by sizeOf defaults
decreasing_by simp_wf

/-- The dict comprehension of the `sanitize` dict branch: one entry per
template key, in template order. -/
def sanitizeFields (kvs : List (String × Json)) :
    List (String × Json) → Except PyErr (List (String × Json))
  | [] => .ok []
  | (k, v) :: rest => do
    let v' ← sanitize (dictGet kvs k) v
    let rest' ← sanitizeFields kvs rest
    pure ((k, v') :: rest')
termination_by tmpl => sizeOf tmpl
decreasing_by
  all_goals simp_wf
  all_goals try omega

end

/-- `default_structure` from `analyze_personal_info` (`llm_analyzer.py`
lines 71–76); the same literal is also the fallback shape returned on
`JSONDecodeError` (lines 90–94) and on any other exception (lines 98–102). -/
def default_structure : Json :=
  .obj [
    ("name", .obj [("first_name", .str ""), ("middle_name", .str ""), ("last_name", .str "")]),
    ("address", .obj [("line1", .str ""), ("line2", .str ""), ("city", .str ""),
                      ("state", .str ""), ("zip", .str "")]),
    ("contact_info", .obj [("email", .str ""), ("phone", .str "")]),
    ("specifications", .obj [("gender", .str ""), ("date_of_birth", .str "")])]

/-! ## Key structure of a sanitized value

`hasShapeOf r tmpl` states the recursive key-structure property that the
specification ascribes to the sanitizer output: the same keys as the
template in the same order at every mapping level, a sequence wherever the
template has a sequence, anything at scalar positions. -/

mutual

def hasShapeOf : Json → Json → Bool
  | r, .obj tmpl =>
    match r with
    | .obj kvs => fieldsShape kvs tmpl
    | _ => false
  | r, .arr _ =>
    match r with
    | .arr _ => true
    | _ => false
  | _, _ => true
termination_by r tmpl => sizeOf tmpl
decreasing_by simp_wf

def fieldsShape : List (String × Json) → List (String × Json) → Bool
  | [], [] => true
  | (k, v) :: kvs, (k', v') :: tmpl => k == k' && hasShapeOf v v' && fieldsShape kvs tmpl
  | _, _ => false
termination_by kvs tmpl => sizeOf tmpl
decreasing_by
  all_goals simp_wf
  all_goals try omega

end

/-! ## Extraction operations (`llm_analyzer.py`)

Each operation calls the external LLM collaborator and `json.loads`; both are
outside this repository, so they are parameters: `llm` is the outcome of
`model.generate_content(...).text` (an exception or a reply string) and
`decode` is the outcome of `json.loads` on the cleaned reply.  The `try`
body is modelled in `Except PyErr`; the `except` clauses catch everything
and return the category's default shape. -/

/-- Body of the `try` block of `analyze_personal_info`
(`llm_analyzer.py` lines 63–86). -/
def personalBody (llm : Except PyErr String) (decode : String → Except PyErr Json) :
    Except PyErr Json := do
  let txt ← llm
  let cleaned := clean_response_text txt
  let analyzed ← decode cleaned
  sanitize analyzed default_structure

/-- `analyze_personal_info` (`llm_analyzer.py` lines 28–103): the `except`
clauses map `JSONDecodeError` and every other exception to the default
structure. -/
def analyze_personal_info (llm : Except PyErr String)
    (decode : String → Except PyErr Json) : Json :=
  match personalBody llm decode with
  | .ok r => r
  | .error _ => default_structure

/-- The default medical-history shape returned by `analyze_medical_history`
on an empty cleaned reply, decode failure, or any other exception
(`llm_analyzer.py` lines 184–189, 206–211, 214–219; identically in
`app.py`). -/
def default_medical : Json :=
  .obj [("illnesses", .arr []), ("surgeries", .arr []),
        ("allergies", .arr []), ("current_medications", .arr [])]

/-- One `if key not in analyzed_data: analyzed_data[key] = []` statement of
`analyze_medical_history`. -/
def backfillKey (d : Json) (k : String) : Except PyErr Json := do
  let present ← pyContains d k
  if present then pure d else pySetItem d k (.arr [])

/-- Body of the `try` block of `analyze_medical_history`
(`llm_analyzer.py` lines 177–202; `app.py` lines 56–81 is the same logic). -/
def medicalBody (llm : Except PyErr String) (decode : String → Except PyErr Json) :
    Except PyErr Json := do
  let txt ← llm
  let cleaned := clean_response_text txt
  if cleaned == "" then
    pure default_medical
  else do
    let analyzed ← decode cleaned
    let d1 ← backfillKey analyzed "illnesses"
    let d2 ← backfillKey d1 "surgeries"
    let d3 ← backfillKey d2 "allergies"
    backfillKey d3 "current_medications"

/-- `analyze_medical_history` (`llm_analyzer.py` lines 150–219; the copy in
`app.py` lines 33–98 differs only in the prompt text). -/
def analyze_medical_history (llm : Except PyErr String)
    (decode : String → Except PyErr Json) : Json :=
  match medicalBody llm decode with
  | .ok r => r
  | .error _ => default_medical

/-- The default demographic shape (`llm_analyzer.py` lines 249–254, 270–275,
278–283). -/
def default_demographic : Json :=
  .obj [("marital_status", .str ""), ("occupation", .str ""),
        ("ethnicity", .str ""), ("preferred_language", .arr [])]

/-- The key list iterated by the back-fill loop of `analyze_demographic_info`
(`llm_analyzer.py` line 259). -/
def demographicKeys : List String :=
  ["marital_status", "occupation", "ethnicity", "preferred_language"]

/-- One iteration of the back-fill loop of `analyze_demographic_info`
(`llm_analyzer.py` lines 259–264). -/
def backfillDemographicKey (d : Json) (k : String) : Except PyErr Json := do
  let present ← pyContains d k
  if present then pure d
  else pySetItem d k (if k == "preferred_language" then .arr [] else .str "")

/-- Body of the `try` block of `analyze_demographic_info`
(`llm_analyzer.py` lines 242–266). -/
def demographicBody (llm : Except PyErr String) (decode : String → Except PyErr Json) :
    Except PyErr Json := do
  let txt ← llm
  let cleaned := clean_response_text txt
  if cleaned == "" then
    pure default_demographic
  else do
    let analyzed ← decode cleaned
    demographicKeys.foldlM backfillDemographicKey analyzed

/-- `analyze_demographic_info` (`llm_analyzer.py` lines 223–283). -/
def analyze_demographic_info (llm : Except PyErr String)
    (decode : String → Except PyErr Json) : Json :=
  match demographicBody llm decode with
  | .ok r => r
  | .error _ => default_demographic

/-- Sequential effectful filter over `Except` (the membership/`!=` test of a
dict comprehension, run left to right). -/
def exceptFilter (p : α → Except PyErr Bool) : List α → Except PyErr (List α)
  | [] => .ok []
  | a :: as => do
    let b ← p a
    let rest ← exceptFilter p as
    pure (if b then a :: rest else rest)

/-- Sequential effectful filter-map over `Except` (one loop iteration that
may or may not add a binding, run left to right). -/
def exceptFilterMap (f : α → Except PyErr (Option β)) : List α → Except PyErr (List β)
  | [] => .ok []
  | a :: as => do
    let r ← f a
    let rest ← exceptFilterMap f as
    pure (match r with | some b => b :: rest | none => rest)

/-- Sequential effectful map over `Except` (evaluating `f in container` for
every required field; the container is the same each iteration, so full
evaluation raises exactly when Python's short-circuiting `all(...)` does). -/
def exceptMap (f : α → Except PyErr β) : List α → Except PyErr (List β)
  | [] => .ok []
  | a :: as => do
    let b ← f a
    let rest ← exceptMap f as
    pure (b :: rest)

/-! ## Patient Store (`app.py` lines 15–17 and 119–132)

The module-level globals `patients_db` (a dict from integer id to patient
record) and `patient_id_counter` become an explicit `StoreState`.  Python
integer ids are `Int`; every id the route constructs comes from the counter,
so a non-integer `patient_id` field is modelled as the `TypeError` such a
value would eventually cause. -/

structure StoreState where
  patients_db : List (Int × Json)
  patient_id_counter : Int

/-- The module initialisation `patients_db = {}` and `patient_id_counter = 1`
(`app.py` lines 16–17). -/
def initState : StoreState := ⟨[], 1⟩

def dbHasKey (db : List (Int × Json)) (pid : Int) : Bool :=
  db.any (fun kv => kv.1 == pid)

def dbLookup (db : List (Int × Json)) (pid : Int) : Option Json :=
  (db.find? (fun kv => kv.1 == pid)).map (·.2)

/-- `patients_db[patient_id] = patient_info`: replace the binding if the key
exists, otherwise append it. -/
def dbSet (db : List (Int × Json)) (pid : Int) (r : Json) : List (Int × Json) :=
  assocSet db pid r

/-- The `else` branch of `save_patient` (`app.py` lines 125–130): take the
next counter value, bump the counter, write the id into the record
(`patient_info['patient_id'] = patient_id` raises `TypeError` on a non-dict),
and store it.  The counter is already bumped when the item assignment runs. -/
def createNew (st : StoreState) (patient_info : Json) :
    StoreState × Except PyErr (Int × Json) :=
  let pid := st.patient_id_counter
  let st1 : StoreState := ⟨st.patients_db, st.patient_id_counter + 1⟩
  match patient_info with
  | .obj kvs =>
    let info := Json.obj (objSet kvs "patient_id" (.num pid))
    (⟨dbSet st1.patients_db pid info, st1.patient_id_counter⟩, .ok (pid, info))
  | _ => (st1, .error .typeError)

/-- `save_patient` (`app.py` lines 119–132).  `if patient_id:` is Python
truthiness, so `None` and `0` both take the creation branch. -/
def save_patient (st : StoreState) (patient_info : Json) (patient_id : Option Int) :
    StoreState × Except PyErr (Int × Json) :=
  match patient_id with
  | some pid =>
    if pid == 0 then createNew st patient_info
    else (⟨dbSet st.patients_db pid patient_info, st.patient_id_counter⟩, .ok (pid, patient_info))
  | none => createNew st patient_info

/-! ## Change-set Diff (`get_updated_fields`, `app.py` lines 100–116) -/

/-- The three top-level sections compared by `get_updated_fields`
(`app.py` line 107). -/
def categories : List String :=
  ["personal_information", "demographic_information", "medical_history"]

/-- The per-section dict comprehension of `get_updated_fields`
(`app.py` lines 110–114): every key of the new section whose value is absent
from, or `!=`-different from, the old section, in new-section order.
Iteration of the new section is modelled for mapping sections — the only
kind the route stores — plus the empty cases; iterating a non-empty
non-mapping section is modelled as the `TypeError` that the comprehension's
first `new_data[category][k]` subscript raises in Python. -/
def sectionTest (oldSec : Json) (kv : String × Json) : Except PyErr Bool := do
  let present ← pyContains oldSec kv.1
  if !present then pure true
  else do
    let ov ← pySubscript oldSec kv.1
    pure (!pyEq kv.2 ov)

def sectionDiff (oldSec newSec : Json) : Except PyErr Json :=
  match newSec with
  | .obj nkvs => do
    let pairs ← exceptFilter (sectionTest oldSec) nkvs
    pure (.obj pairs)
  | .str s => if s.data.isEmpty then pure (.obj []) else .error .typeError
  | .arr xs => if xs.isEmpty then pure (.obj []) else .error .typeError
  | _ => .error .typeError

/-- One iteration of the `get_updated_fields` loop (`app.py` lines 107–114):
skip the category unless present in both records and `!=`-different, else
record the per-section diff. -/
def categoryUpdate (old_data new_data : Json) (category : String) :
    Except PyErr (Option (String × Json)) := do
  let inNew ← pyContains new_data category
  if !inNew then pure none
  else do
    let inOld ← pyContains old_data category
    if !inOld then pure none
    else do
      let nv ← pySubscript new_data category
      let ov ← pySubscript old_data category
      if pyEq nv ov then pure none
      else do
        let d ← sectionDiff ov nv
        pure (some (category, d))

/-- `get_updated_fields` (`app.py` lines 100–116). -/
def get_updated_fields (old_data new_data : Json) : Except PyErr Json :=
  if !old_data.truthy then
    .ok (.obj [("all", .str "New patient record created")])
  else do
    let pairs ← exceptFilterMap (categoryUpdate old_data new_data) categories
    pure (.obj pairs)

/-! ## The register-or-update route (`app.py` lines 134–230) -/

/-- The HTTP outcome of `register_or_update_patient`: 400 with an error
message, 200 with the change-set and the updated record, or 201 with the new
record. -/
inductive RegResult where
  | badRequest (msg : String) : RegResult
  | updated (updates : Json) (patient : Json) : RegResult
  | created (patient : Json) : RegResult

def required_personal_info : List String :=
  ["first_name", "last_name", "date_of_birth", "gender", "email", "address"]

def required_address_info : List String :=
  ["line1", "line2", "city", "state", "postcode"]

/-- Outcome of the validation prefix of the route (`app.py` lines 138–165):
either an early 400 response or the extracted `personal_information` and
`email` values. -/
inductive ValidOutcome where
  | bad (msg : String) : ValidOutcome
  | good (personal_information : Json) (email : Json) : ValidOutcome

/-- The validation prefix of the route (`app.py` lines 138–165). Python's
`all(f in c for f in fields)` evaluates `in` on the same container each
iteration, so evaluating every membership (rather than short-circuiting)
raises exactly when the short-circuit form does. -/
def validateRequest (data : Json) : Except PyErr ValidOutcome := do
  let personal_information ← pyGet data "personal_information" (.obj [])
  let checks ← exceptMap (pyContains personal_information) required_personal_info
  if !checks.all id then
    pure (.bad "Missing required personal information")
  else do
    let address ← pyGet personal_information "address" (.obj [])
    let achecks ← exceptMap (pyContains address) required_address_info
    if !achecks.all id then
      pure (.bad "Incomplete address information")
    else do
      let email ← pyGet personal_information "email" .null
      if !email.truthy then
        pure (.bad "Email is required to identify the patient")
      else
        pure (.good personal_information email)

/-- The generator-with-`next` scan over `patients_db.values()`
(`app.py` line 168): the first stored record whose
`['personal_information']['email']` equals the request email. -/
def find_by_email : List (Int × Json) → Json → Except PyErr (Option (Int × Json))
  | [], _ => .ok none
  | (pid, r) :: rest, email => do
    let pinfo ← pySubscript r "personal_information"
    let em ← pySubscript pinfo "email"
    if pyEq em email then pure (some (pid, r)) else find_by_email rest email

/-- The patient-id field of a stored record, an integer in every state the
route constructs. -/
def jsonToIntId : Json → Except PyErr Int
  | .num n => .ok n
  | _ => .error .typeError

/-- The update branch of the route (`app.py` lines 170–202).  `analyzeMed` is
the composite behaviour of `analyze_medical_history` together with its LLM
collaborator and `json.loads` (a total function: the operation catches all
its exceptions).  Exceptions raised before `save_patient` leave the store
unchanged; `get_updated_fields` runs after the save, so its exception turns
into a 400 response with the save already applied, exactly as in Python. -/
def updateFinish (st : StoreState) (ex : Json) (pr : Int × Json) : StoreState × RegResult :=
  let (st1, saved) := save_patient st pr.2 (some pr.1)
  match saved with
  | .error _ => (st1, .badRequest "exception")
  | .ok (_, updated_patient) =>
    match get_updated_fields ex updated_patient with
    | .ok upd => (st1, .updated upd updated_patient)
    | .error _ => (st1, .badRequest "exception")

def updateBranch (st : StoreState) (data personal_information existingRec : Json)
    (analyzeMed : Json → Json) : StoreState × RegResult :=
  match (do
    let pidJ ← pySubscript existingRec "patient_id"
    let pid ← jsonToIntId pidJ
    let p1 ← pySetItem existingRec "personal_information" personal_information
    let demo ← pyGet data "demographic_information" (.obj [])
    let p2 ← pySetItem p1 "demographic_information" demo
    let hasMed ← pyContains data "medical_history"
    let p3 ← if hasMed then do
        let mtext ← pySubscript data "medical_history"
        pySetItem p2 "medical_history" (analyzeMed mtext)
      else pure p2
    pure (pid, p3) : Except PyErr (Int × Json)) with
  | .error _ => (st, .badRequest "exception")
  | .ok pr => updateFinish st existingRec pr

/-- The creation branch of the route (`app.py` lines 204–224).  The 201
response message interpolates `personal_information['first_name']` and
`['last_name']` after the save, so a failure there is a 400 response with
the record already stored. -/
def createBranch (st : StoreState) (data personal_information : Json)
    (analyzeMed : Json → Json) : StoreState × RegResult :=
  match (do
    let demo ← pyGet data "demographic_information" (.obj [])
    let mtext ← pyGet data "medical_history" (.str "")
    pure (Json.obj [("personal_information", personal_information),
                    ("demographic_information", demo),
                    ("medical_history", analyzeMed mtext)]) : Except PyErr Json) with
  | .error _ => (st, .badRequest "exception")
  | .ok patient_info =>
    let (st1, saved) := save_patient st patient_info none
    match saved with
    | .error _ => (st1, .badRequest "exception")
    | .ok (_, new_patient) =>
      match pySubscript personal_information "first_name",
            pySubscript personal_information "last_name" with
      | .ok _, .ok _ => (st1, .created new_patient)
      | _, _ => (st1, .badRequest "exception")

/-- The route after validation (`app.py` lines 167–224): look the email up,
then update or create. -/
def afterValidate (st : StoreState) (data : Json) (analyzeMed : Json → Json) :
    ValidOutcome → StoreState × RegResult
  | .bad msg => (st, .badRequest msg)
  | .good personal_information email =>
    match find_by_email st.patients_db email with
    | .error _ => (st, .badRequest "exception")
    | .ok (some (_, existingRec)) =>
      updateBranch st data personal_information existingRec analyzeMed
    | .ok none => createBranch st data personal_information analyzeMed

/-- `register_or_update_patient` (`app.py` lines 134–230): validate, look the
email up, then update or create.  The route-level `except` turns any
uncaught exception into a 400 response. -/
def register_or_update_patient (st : StoreState) (data : Json)
    (analyzeMed : Json → Json) : StoreState × RegResult :=
  match validateRequest data with
  | .error _ => (st, .badRequest "exception")
  | .ok vo => afterValidate st data analyzeMed vo

/-- Whether a JSON object has a binding for `k` (pure form of Python
`k in d` for mappings). -/
def hasKeyB (j : Json) (k : String) : Bool :=
  match j with
  | .obj kvs => kvs.any (fun kv => kv.1 == k)
  | _ => false

/-- The store invariant maintained by the route: a positive counter, distinct
keys all in `[1, counter)`, and every stored record a mapping carrying its
own key in its `patient_id` field. -/
def WF (st : StoreState) : Prop :=
  1 ≤ st.patient_id_counter ∧
  (st.patients_db.map Prod.fst).Nodup ∧
  ∀ pr ∈ st.patients_db,
    1 ≤ pr.1 ∧ pr.1 < st.patient_id_counter ∧
    pr.2.lookup "patient_id" = some (.num pr.1) ∧ pr.2.isObj = true

/-- The per-section change-set the specification describes: every key of the
new section whose value is absent from, or `==`-different from, the old
section, in new-section order. -/
def specSectionDiff (osec nsec : List (String × Json)) : List (String × Json) :=
  nsec.filter (fun kv =>
    match lookupKey osec kv.1 with
    | none => true
    | some ov => !pyEq kv.2 ov)

/-- The change the specification describes for one section name: when the
section is present in both records as a mapping and the new value differs by
structural equality, the section paired with its per-section diff; otherwise
nothing. -/
def specCategoryChange (okvs nkvs : List (String × Json)) (c : String) :
    Option (String × Json) :=
  match lookupKey nkvs c, lookupKey okvs c with
  | some (.obj nsec), some (.obj osec) =>
    if pyEq (.obj nsec) (.obj osec) then none
    else some (c, Json.obj (specSectionDiff osec nsec))
  | _, _ => none

/-- The change-set the specification describes over a list of section names:
exactly the sections present in both records (as mappings) whose new value
differs by structural equality, each mapped to its per-section diff. -/
def specUpdatesOn (okvs nkvs : List (String × Json)) (cs : List String) :
    List (String × Json) :=
  cs.filterMap (specCategoryChange okvs nkvs)

mutual

/-- `badAt data tmpl` marks the inputs on which `sanitize data tmpl` raises:
a non-mapping (after `data.get(key, "")` substitution) where the template
has a mapping, or a falsy non-string where the template has a scalar. -/
def badAt (data tmpl : Json) : Bool :=
  match tmpl with
  | .obj t =>
    match data with
    | .obj kvs => badAtFields kvs t
    | _ => true
  | .arr _ => false
  | _ =>
    match data with
    | .str _ => false
    | d => !d.truthy
termination_by sizeOf tmpl
decreasing_by simp_wf

/-- `badAt` lifted over the fields of a mapping template. -/
def badAtFields (kvs : List (String × Json)) : List (String × Json) → Bool
  | [] => false
  | (k, v) :: rest => badAt (dictGet kvs k) v || badAtFields kvs rest
termination_by tf => sizeOf tf
decreasing_by
  all_goals simp_wf
  all_goals try omega

end

/-- A scalar (non-mapping, non-sequence) template node. -/
def Json.isLeaf : Json → Bool
  | .obj _ => false
  | .arr _ => false
  | _ => true

def Json.isStr : Json → Bool
  | .str _ => true
  | _ => false

/-- A reply whose four sections are present but empty mappings. -/
def personalShapeInput : Json :=
  .obj [("name", .obj []), ("address", .obj []),
        ("contact_info", .obj []), ("specifications", .obj [])]

/-- The four list-valued keys back-filled by `analyze_medical_history`
(`llm_analyzer.py` lines 193–200). -/
def medicalKeys : List String :=
  ["illnesses", "surgeries", "allergies", "current_medications"]

/-- A stored example patient used by the update-path witness. -/
def exPersonal : Json :=
  .obj [("first_name", .str "Ann"), ("last_name", .str "Lee"),
        ("date_of_birth", .str "1990-01-01"), ("gender", .str "f"),
        ("email", .str "a@x.com"),
        ("address", .obj [("line1", .str "1"), ("line2", .str "2"),
                          ("city", .str "C"), ("state", .str "S"), ("postcode", .str "P")])]

def exRecord : Json :=
  .obj [("personal_information", exPersonal),
        ("demographic_information", .obj []),
        ("medical_history", .obj []),
        ("patient_id", .num 1)]

def exState : StoreState := ⟨[(1, exRecord)], 2⟩

def exRequest : Json :=
  .obj [("personal_information", exPersonal)]

/-- The before/after records of the C8 witness: only `last_name` changes. -/
def oldRecKvs : List (String × Json) :=
  [("personal_information", .obj [("last_name", .str "A")]),
   ("demographic_information", .obj []),
   ("medical_history", .obj [])]

def newRecKvs : List (String × Json) :=
  [("personal_information", .obj [("last_name", .str "B")]),
   ("demographic_information", .obj []),
   ("medical_history", .obj [])]

/-- The reply string of the C2 counterexample: a quoted JSON string whose
content mentions all four medical keys. -/
def nonMappingReply : String := "illnesses surgeries allergies current_medications"

/-- `json.loads` modelled on the one cleaned reply used in the C2
counterexample: a quoted string literal decodes to its content. -/
def quotedDecode : String → Except PyErr Json := fun s =>
  if s = "\"illnesses surgeries allergies current_medications\"" then
    .ok (.str nonMappingReply)
  else .error .typeError

/-! # Theorems

## Normalizer lemmas -/

theorem mem_pyStrip {c : Char} {l : List Char} (h : c ∈ pyStrip l) : c ∈ l := by
  unfold pyStrip at h
  have h1 := List.mem_reverse.mp h
  have h2 := (List.dropWhile_sublist pyIsSpace).mem h1
  have h3 := List.mem_reverse.mp h2
  exact (List.dropWhile_sublist pyIsSpace).mem h3

theorem pyToLower_of_not_printable {c : Char} (h : pyIsPrintable c = false) :
    pyToLower c = c := by
  simp [pyIsPrintable] at h
  unfold pyToLower
  rw [if_neg]
  omega

theorem map_pyToLower_of_not_printable {l : List Char}
    (h : ∀ c ∈ l, pyIsPrintable c = false) : l.map pyToLower = l := by
  induction l with
  | nil => rfl
  | cons a as ih =>
    simp only [List.map_cons,
      pyToLower_of_not_printable (h a (by simp)),
      ih (fun c hc => h c (by simp [hc]))]

theorem fenceOpen_eq : fenceOpen = ['\x60', '\x60', '\x60', 'j', 's', 'o', 'n'] := by decide

theorem fenceClose_eq : fenceClose = ['\x60', '\x60', '\x60'] := by decide

theorem fenceOpen_not_prefixOf {l : List Char}
    (h : ∀ c ∈ l, pyIsPrintable c = false) :
    fenceOpen.isPrefixOf (l.map pyToLower) = false := by
  rw [map_pyToLower_of_not_printable h, fenceOpen_eq]
  cases l with
  | nil => rfl
  | cons a as =>
    simp only [List.isPrefixOf, Bool.and_eq_false_iff]
    left
    have ha := h a (by simp)
    by_contra hcon
    simp at hcon
    rw [← hcon] at ha
    exact absurd ha (by decide)

theorem fenceClose_not_suffixOf {l : List Char}
    (h : ∀ c ∈ l, pyIsPrintable c = false) :
    fenceClose.isSuffixOf l = false := by
  show fenceClose.reverse.isPrefixOf l.reverse = false
  rw [fenceClose_eq]
  cases hrev : l.reverse with
  | nil => rfl
  | cons a as =>
    have ha : a ∈ l := List.mem_reverse.mp (by rw [hrev]; simp)
    simp only [List.reverse_cons, List.reverse_nil, List.nil_append, List.cons_append,
      List.isPrefixOf, Bool.and_eq_false_iff]
    left
    have hap := h a ha
    by_contra hcon
    simp at hcon
    rw [← hcon] at hap
    exact absurd hap (by decide)

/-- C9: `clean_response_text` is total — it is a function in this embedding,
defined for every string including the empty string, and raises nothing —
and on an input consisting only of non-printable characters it returns the
empty string. -/
theorem clean_response_text_nonprintable_empty (s : String)
    (h : ∀ c ∈ s.data, pyIsPrintable c = false) :
    clean_response_text s = "" := by
  have h0 : ∀ c ∈ pyStrip s.data, pyIsPrintable c = false :=
    fun c hc => h c (mem_pyStrip hc)
  show String.mk (cleanChars s.data) = ""
  unfold cleanChars
  simp only [fenceOpen_not_prefixOf h0, fenceClose_not_suffixOf h0,
    Bool.false_eq_true, if_false]
  rw [List.filter_eq_nil_iff.mpr (fun c hc => by simp [h0 c hc])]

theorem clean_response_text_nonprintable_empty_witness :
    (∀ c ∈ ("\x01\x02\x03" : String).data, pyIsPrintable c = false) ∧
    clean_response_text "\x01\x02\x03" = "" :=
  ⟨by decide, clean_response_text_nonprintable_empty "\x01\x02\x03" (by decide)⟩

/-- C5 counterexample: `clean_response_text` is not idempotent.  On
`"ab \x00"` the filter step removes the NUL and exposes a trailing space,
which only a second application strips. -/
theorem clean_response_text_not_idempotent :
    clean_response_text (clean_response_text "ab \x00") ≠
      clean_response_text "ab \x00" := by decide

/-- C5 amended: `clean_response_text` is idempotent on every input whose
cleaned form is already stripped, does not start (case-insensitively) with
the opening code-fence marker, and does not end with the closing marker. -/
theorem clean_response_text_idempotent_of_normalized (s : String)
    (h1 : pyStrip (clean_response_text s).data = (clean_response_text s).data)
    (h2 : fenceOpen.isPrefixOf ((clean_response_text s).data.map pyToLower) = false)
    (h3 : fenceClose.isSuffixOf (clean_response_text s).data = false) :
    clean_response_text (clean_response_text s) = clean_response_text s := by
  have hpr : ∀ c ∈ (clean_response_text s).data, pyIsPrintable c = true := by
    intro c hc
    have hc' : c ∈ (pyStrip s.data |> fun t0 =>
        (if fenceOpen.isPrefixOf (t0.map pyToLower) then pyStrip (t0.drop 7) else t0)
        |> fun t1 =>
        (if fenceClose.isSuffixOf t1 then pyStrip (t1.take (t1.length - 3)) else t1)
        |> fun t2 => t2.filter pyIsPrintable) := hc
    exact (List.mem_filter.mp hc').2
  show String.mk (cleanChars (clean_response_text s).data) = clean_response_text s
  unfold cleanChars
  simp only [h1, h2, h3, Bool.false_eq_true, if_false]
  rw [List.filter_eq_self.mpr hpr]

theorem clean_response_text_idempotent_of_normalized_witness :
    clean_response_text (clean_response_text "  hi there ") =
      clean_response_text "  hi there " :=
  clean_response_text_idempotent_of_normalized "  hi there "
    (by decide) (by decide) (by decide)

/-! ## Sanitizer lemmas -/

theorem sizeOf_json_pos (j : Json) : 0 < sizeOf j := by
  cases j <;> simp_arith

theorem sizeOf_fields_pos (tf : List (String × Json)) : 0 < sizeOf tf := by
  cases tf <;> simp_arith

theorem pyStripStr_empty : pyStripStr "" = "" := rfl

theorem sanitize_shape_aux (n : Nat) :
    (∀ tmpl, sizeOf tmpl ≤ n → ∀ data r, sanitize data tmpl = .ok r →
      hasShapeOf r tmpl = true) ∧
    (∀ tf : List (String × Json), sizeOf tf ≤ n → ∀ kvs fs,
      sanitizeFields kvs tf = .ok fs → fieldsShape fs tf = true) := by
  induction n with
  | zero =>
    constructor
    · intro tmpl h
      exact absurd h (by have := sizeOf_json_pos tmpl; omega)
    · intro tf h
      exact absurd h (by have := sizeOf_fields_pos tf; omega)
  | succ n ih =>
    constructor
    · intro tmpl hsz data r hok
      match tmpl with
      | .obj t =>
        match data with
        | .obj kvs =>
          rw [sanitize.eq_def] at hok
          simp only at hok
          cases hsf : sanitizeFields kvs t with
          | error e => rw [hsf] at hok; simp [Except.map] at hok
          | ok fs =>
            rw [hsf] at hok
            simp only [Except.map] at hok
            cases hok
            have hst : sizeOf t ≤ n := by
              have : sizeOf (Json.obj t) = 1 + sizeOf t := by simp
              omega
            rw [hasShapeOf.eq_def]
            simp only
            exact ih.2 t hst kvs fs hsf
        | .null => rw [sanitize.eq_def] at hok; simp at hok
        | .bool b => rw [sanitize.eq_def] at hok; simp at hok
        | .num m => rw [sanitize.eq_def] at hok; simp at hok
        | .str s => rw [sanitize.eq_def] at hok; simp at hok
        | .arr xs => rw [sanitize.eq_def] at hok; simp at hok
      | .arr t =>
        match data with
        | .arr xs =>
          rw [sanitize.eq_def] at hok
          simp only at hok
          cases hok
          rw [hasShapeOf.eq_def]
        | .null => rw [sanitize.eq_def] at hok; simp only at hok; cases hok; rw [hasShapeOf.eq_def]
        | .bool b => rw [sanitize.eq_def] at hok; simp only at hok; cases hok; rw [hasShapeOf.eq_def]
        | .num m => rw [sanitize.eq_def] at hok; simp only at hok; cases hok; rw [hasShapeOf.eq_def]
        | .str s => rw [sanitize.eq_def] at hok; simp only at hok; cases hok; rw [hasShapeOf.eq_def]
        | .obj kvs => rw [sanitize.eq_def] at hok; simp only at hok; cases hok; rw [hasShapeOf.eq_def]
      | .null => rw [hasShapeOf.eq_def]
      | .bool b => rw [hasShapeOf.eq_def]
      | .num m => rw [hasShapeOf.eq_def]
      | .str s => rw [hasShapeOf.eq_def]
    · intro tf hsz kvs fs hok
      match tf with
      | [] =>
        rw [sanitizeFields.eq_def] at hok
        simp only at hok
        cases hok
        rw [fieldsShape.eq_def]
      | (k, v) :: rest =>
        rw [sanitizeFields.eq_def] at hok
        simp only at hok
        cases hs1 : sanitize (dictGet kvs k) v with
        | error e => rw [hs1] at hok; exact Except.noConfusion hok
        | ok v' =>
          rw [hs1] at hok
          cases hs2 : sanitizeFields kvs rest with
          | error e => rw [hs2] at hok; exact Except.noConfusion hok
          | ok rest' =>
            rw [hs2] at hok
            have hok2 : Except.ok ((k, v') :: rest') =
                (Except.ok fs : Except PyErr (List (String × Json))) := hok
            cases hok2
            have hv : sizeOf v ≤ n := by
              have : sizeOf ((k, v) :: rest) = 1 + (1 + sizeOf k + sizeOf v) + sizeOf rest := by
                simp
              have := sizeOf_fields_pos rest
              omega
            have hr : sizeOf rest ≤ n := by
              have : sizeOf ((k, v) :: rest) = 1 + (1 + sizeOf k + sizeOf v) + sizeOf rest := by
                simp
              have := sizeOf_json_pos v
              omega
            rw [fieldsShape.eq_def]
            simp only [beq_self_eq_true, Bool.true_and, Bool.and_eq_true]
            exact ⟨ih.1 v hv (dictGet kvs k) v' hs1, ih.2 rest hr kvs rest' hs2⟩

/-- Every successful `sanitize` run yields exactly the template's key
structure, at every level. -/
theorem sanitize_ok_hasShapeOf (tmpl data r : Json) (h : sanitize data tmpl = .ok r) :
    hasShapeOf r tmpl = true :=
  (sanitize_shape_aux (sizeOf tmpl)).1 tmpl le_rfl data r h

/-- One unfolding step of `sanitizeFields` on a non-empty template. -/
theorem sanitizeFields_cons (kvs : List (String × Json)) (k : String) (v : Json)
    (rest : List (String × Json)) :
    sanitizeFields kvs ((k, v) :: rest) =
      match sanitize (dictGet kvs k) v with
      | .error e => .error e
      | .ok v' =>
        match sanitizeFields kvs rest with
        | .error e => .error e
        | .ok rest' => .ok ((k, v') :: rest') := by
  have h : sanitizeFields kvs ((k, v) :: rest) =
      (do
        let v' ← sanitize (dictGet kvs k) v
        let rest' ← sanitizeFields kvs rest
        pure ((k, v') :: rest')) := by
    rw [sanitizeFields.eq_def]
  rw [h]
  cases sanitize (dictGet kvs k) v with
  | error e => rfl
  | ok v' =>
    cases sanitizeFields kvs rest with
    | error e => rfl
    | ok rest' => rfl

/-! ## Positions at which `sanitize` raises -/

/-- On a scalar template node, `sanitize` keeps truthy non-strings and
non-blank strings, maps blank strings to `""`, and raises `AttributeError`
on falsy non-strings; `badAt` marks exactly the raising inputs. -/
theorem sanitize_leaf_spec (tmpl : Json) (hleaf : tmpl.isLeaf = true) (data : Json) :
    (badAt data tmpl = true → sanitize data tmpl = .error .attributeError) ∧
    (badAt data tmpl = false → ∃ r, sanitize data tmpl = .ok r) := by
  cases tmpl
  case arr => simp [Json.isLeaf] at hleaf
  case obj => simp [Json.isLeaf] at hleaf
  all_goals
    cases data with
    | null =>
      exact ⟨fun _ => by rw [sanitize.eq_def] <;> rfl,
             fun hb => by rw [badAt.eq_def] at hb; simp [Json.truthy] at hb⟩
    | str s =>
      exact ⟨fun hb => by rw [badAt.eq_def] at hb; simp at hb,
             fun _ => ⟨_, by rw [sanitize.eq_def] <;> rfl⟩⟩
    | bool b =>
      constructor
      · intro hb
        rw [badAt.eq_def] at hb
        simp [Json.truthy] at hb
        subst hb
        rw [sanitize.eq_def] <;> rfl
      · intro hb
        rw [badAt.eq_def] at hb
        simp [Json.truthy] at hb
        subst hb
        exact ⟨_, by rw [sanitize.eq_def] <;> rfl⟩
    | num n =>
      constructor
      · intro hb
        rw [badAt.eq_def] at hb
        simp [Json.truthy] at hb
        subst hb
        rw [sanitize.eq_def] <;> rfl
      · intro hb
        rw [badAt.eq_def] at hb
        simp [Json.truthy] at hb
        refine ⟨.num n, ?_⟩
        rw [sanitize.eq_def]
        simp [Json.truthy, hb]
    | arr xs =>
      constructor
      · intro hb
        rw [badAt.eq_def] at hb
        simp [Json.truthy] at hb
        subst hb
        rw [sanitize.eq_def] <;> rfl
      · intro hb
        rw [badAt.eq_def] at hb
        simp [Json.truthy] at hb
        refine ⟨.arr xs, ?_⟩
        rw [sanitize.eq_def]
        simp [Json.truthy, hb]
    | obj kvs =>
      constructor
      · intro hb
        rw [badAt.eq_def] at hb
        simp [Json.truthy] at hb
        subst hb
        rw [sanitize.eq_def] <;> rfl
      · intro hb
        rw [badAt.eq_def] at hb
        simp [Json.truthy] at hb
        refine ⟨.obj kvs, ?_⟩
        rw [sanitize.eq_def]
        simp [Json.truthy, hb]

theorem sanitize_error_iff_aux (n : Nat) :
    (∀ tmpl, sizeOf tmpl ≤ n → ∀ data,
      (badAt data tmpl = true → sanitize data tmpl = .error .attributeError) ∧
      (badAt data tmpl = false → ∃ r, sanitize data tmpl = .ok r)) ∧
    (∀ tf : List (String × Json), sizeOf tf ≤ n → ∀ kvs,
      (badAtFields kvs tf = true → sanitizeFields kvs tf = .error .attributeError) ∧
      (badAtFields kvs tf = false → ∃ fs, sanitizeFields kvs tf = .ok fs)) := by
  induction n with
  | zero =>
    constructor
    · intro tmpl h
      exact absurd h (by have := sizeOf_json_pos tmpl; omega)
    · intro tf h
      exact absurd h (by have := sizeOf_fields_pos tf; omega)
  | succ n ih =>
    constructor
    · intro tmpl hsz data
      match tmpl with
      | .obj t =>
        have hst : sizeOf t ≤ n := by
          have : sizeOf (Json.obj t) = 1 + sizeOf t := by simp
          omega
        match data with
        | .obj kvs =>
          rw [badAt.eq_def, sanitize.eq_def]
          simp only
          constructor
          · intro hb
            rw [(ih.2 t hst kvs).1 hb]
            rfl
          · intro hb
            obtain ⟨fs, hfs⟩ := (ih.2 t hst kvs).2 hb
            exact ⟨.obj fs, by rw [hfs]; rfl⟩
        | .null => exact ⟨fun _ => by rw [sanitize.eq_def], fun h => by rw [badAt.eq_def] at h; simp at h⟩
        | .bool b => exact ⟨fun _ => by rw [sanitize.eq_def], fun h => by rw [badAt.eq_def] at h; simp at h⟩
        | .num m => exact ⟨fun _ => by rw [sanitize.eq_def], fun h => by rw [badAt.eq_def] at h; simp at h⟩
        | .str s => exact ⟨fun _ => by rw [sanitize.eq_def], fun h => by rw [badAt.eq_def] at h; simp at h⟩
        | .arr xs => exact ⟨fun _ => by rw [sanitize.eq_def], fun h => by rw [badAt.eq_def] at h; simp at h⟩
      | .arr t =>
        constructor
        · intro hb
          rw [badAt.eq_def] at hb
          simp at hb
        · intro _
          rw [sanitize.eq_def]
          match data with
          | .arr xs => exact ⟨.arr xs, rfl⟩
          | .null => exact ⟨.arr [], rfl⟩
          | .bool b => exact ⟨.arr [], rfl⟩
          | .num m => exact ⟨.arr [], rfl⟩
          | .str s => exact ⟨.arr [], rfl⟩
          | .obj kvs => exact ⟨.arr [], rfl⟩
      | .null => exact sanitize_leaf_spec .null rfl data
      | .bool b => exact sanitize_leaf_spec (.bool b) rfl data
      | .num m => exact sanitize_leaf_spec (.num m) rfl data
      | .str s => exact sanitize_leaf_spec (.str s) rfl data
    · intro tf hsz kvs
      match tf with
      | [] =>
        constructor
        · intro hb
          rw [badAtFields.eq_def] at hb
          simp at hb
        · intro _
          exact ⟨[], by rw [sanitizeFields.eq_def]⟩
      | (k, v) :: rest =>
        have hv : sizeOf v ≤ n := by
          have : sizeOf ((k, v) :: rest) = 1 + (1 + sizeOf k + sizeOf v) + sizeOf rest := by
            simp
          have := sizeOf_fields_pos rest
          omega
        have hr : sizeOf rest ≤ n := by
          have : sizeOf ((k, v) :: rest) = 1 + (1 + sizeOf k + sizeOf v) + sizeOf rest := by
            simp
          have := sizeOf_json_pos v
          omega
        have hbf : badAtFields kvs ((k, v) :: rest) =
            (badAt (dictGet kvs k) v || badAtFields kvs rest) := by
          rw [badAtFields.eq_def]
        constructor
        · intro hb
          rw [hbf] at hb
          rw [sanitizeFields_cons]
          rcases Bool.or_eq_true_iff.mp hb with h1 | h2
          · rw [(ih.1 v hv (dictGet kvs k)).1 h1]
          · cases hs1 : sanitize (dictGet kvs k) v with
            | error e =>
              cases hbad : badAt (dictGet kvs k) v with
              | true => rw [(ih.1 v hv (dictGet kvs k)).1 hbad] at hs1; cases hs1; rfl
              | false =>
                obtain ⟨r, hrr⟩ := (ih.1 v hv (dictGet kvs k)).2 hbad
                rw [hrr] at hs1
                exact Except.noConfusion hs1
            | ok v' =>
              rw [(ih.2 rest hr kvs).1 h2]
        · intro hb
          rw [hbf] at hb
          have hb1 : badAt (dictGet kvs k) v = false := by
            cases h : badAt (dictGet kvs k) v
            · rfl
            · rw [h] at hb; simp at hb
          have hb2 : badAtFields kvs rest = false := by
            cases h : badAtFields kvs rest
            · rfl
            · rw [h] at hb; simp at hb
          obtain ⟨v', hv'⟩ := (ih.1 v hv (dictGet kvs k)).2 hb1
          obtain ⟨rest', hrest'⟩ := (ih.2 rest hr kvs).2 hb2
          refine ⟨(k, v') :: rest', ?_⟩
          rw [sanitizeFields_cons, hv', hrest']

/-- Inputs marked by `badAt` make `sanitize` raise `AttributeError`. -/
theorem sanitize_error_of_badAt (tmpl data : Json) (h : badAt data tmpl = true) :
    sanitize data tmpl = .error .attributeError :=
  ((sanitize_error_iff_aux (sizeOf tmpl)).1 tmpl le_rfl data).1 h

/-- Inputs not marked by `badAt` sanitize without raising. -/
theorem sanitize_ok_of_not_badAt (tmpl data : Json) (h : badAt data tmpl = false) :
    ∃ r, sanitize data tmpl = .ok r :=
  ((sanitize_error_iff_aux (sizeOf tmpl)).1 tmpl le_rfl data).2 h

/-- C1 counterexample: on a decoded JSON value that is a string — e.g. a
quoted refusal sentence — `sanitize` against the personal-information
template raises `AttributeError` (`data.get` on a non-dict) instead of
returning a template-shaped value. -/
theorem sanitize_personal_info_raises_on_string :
    sanitize (Json.str "Sorry") default_structure = .error .attributeError := by
  simp [sanitize.eq_def, default_structure]

/-- C1 amended: `sanitize` against the personal-information template always
terminates but can raise; whenever it returns normally, the returned value
has exactly the template's key structure at every level. -/
theorem sanitize_personal_info_key_structure (data r : Json)
    (h : sanitize data default_structure = .ok r) :
    hasShapeOf r default_structure = true :=
  sanitize_ok_hasShapeOf default_structure data r h

theorem sanitize_personal_info_key_structure_witness :
    sanitize personalShapeInput default_structure = .ok default_structure ∧
    hasShapeOf default_structure default_structure = true := by
  have h : sanitize personalShapeInput default_structure = .ok default_structure := by
    simp [sanitize.eq_def, sanitizeFields.eq_def, personalShapeInput, default_structure,
      dictGet, lookupKey, List.find?, pyStripStr_empty]
    rfl
  exact ⟨h, sanitize_personal_info_key_structure personalShapeInput default_structure h⟩

/-- C4 counterexample: at a scalar template position a JSON `null` does not
map to `""` — the scalar branch evaluates `None.strip()` and raises
`AttributeError`. -/
theorem sanitize_scalar_raises_on_null :
    sanitize Json.null (Json.str "") = .error .attributeError := by
  rw [sanitize.eq_def] <;> rfl

/-- C4 amended: at a scalar template position, a string is kept when
non-blank after trimming and replaced by `""` when blank; a truthy
non-string is kept as-is; a falsy non-string (null, false, 0, empty
sequence or mapping) raises `AttributeError`. -/
theorem sanitize_scalar_behaviour (d : Json) :
    (∀ s, d = .str s → pyStripStr s ≠ "" → sanitize d (.str "") = .ok d)
  ∧ (∀ s, d = .str s → pyStripStr s = "" → sanitize d (.str "") = .ok (.str ""))
  ∧ (d.isStr = false → d.truthy = true → sanitize d (.str "") = .ok d)
  ∧ (d.isStr = false → d.truthy = false → sanitize d (.str "") = .error .attributeError) := by
  refine ⟨?_, ?_, ?_, ?_⟩
  · intro s hd hne
    subst hd
    rw [sanitize.eq_def]
    simp [hne]
  · intro s hd he
    subst hd
    rw [sanitize.eq_def]
    simp [he]
  · intro hstr htr
    cases d <;> simp [Json.isStr] at hstr <;> rw [sanitize.eq_def] <;> simp [htr]
  · intro hstr hfa
    cases d <;> simp [Json.isStr] at hstr <;> rw [sanitize.eq_def] <;> simp [hfa]

theorem sanitize_scalar_behaviour_witness :
    sanitize (.str "  ") (.str "") = .ok (.str "") ∧
    sanitize (.num 7) (.str "") = .ok (.num 7) :=
  ⟨(sanitize_scalar_behaviour (.str "  ")).2.1 "  " rfl (by decide),
   (sanitize_scalar_behaviour (.num 7)).2.2.1 rfl rfl⟩

/-- C10: a decoded reply containing — at any template position — a falsy
non-string where the template has a scalar, or a non-mapping where the
template has a mapping, makes the internal `sanitize` call raise; the
catch-all handler then discards the entire reply and
`analyze_personal_info` returns the whole default shape. -/
theorem analyze_personal_info_all_or_nothing (txt : String)
    (decode : String → Except PyErr Json) (decoded : Json)
    (hdec : decode (clean_response_text txt) = .ok decoded)
    (hbad : badAt decoded default_structure = true) :
    sanitize decoded default_structure = .error .attributeError ∧
    analyze_personal_info (.ok txt) decode = default_structure := by
  have hserr := sanitize_error_of_badAt default_structure decoded hbad
  refine ⟨hserr, ?_⟩
  have hbody : personalBody (.ok txt) decode =
      (do
        let analyzed ← decode (clean_response_text txt)
        sanitize analyzed default_structure) := rfl
  unfold analyze_personal_info
  rw [hbody, hdec]
  have hred : (do
      let analyzed ← (Except.ok decoded : Except PyErr Json)
      sanitize analyzed default_structure) = sanitize decoded default_structure := rfl
  rw [hred, hserr]

theorem analyze_personal_info_all_or_nothing_witness :
    sanitize (.obj [("name", .obj [("first_name", .null)])]) default_structure =
      .error .attributeError ∧
    analyze_personal_info (.ok "x")
      (fun _ => .ok (.obj [("name", .obj [("first_name", .null)])])) = default_structure :=
  analyze_personal_info_all_or_nothing "x"
    (fun _ => .ok (.obj [("name", .obj [("first_name", .null)])]))
    (.obj [("name", .obj [("first_name", .null)])]) rfl
    (by simp [badAt.eq_def, badAtFields.eq_def, default_structure, dictGet, lookupKey,
          List.find?, Json.truthy])

/-! ## Extraction-operation lemmas -/

theorem isObj_of_hasShapeOf_obj (r : Json) (t : List (String × Json))
    (h : hasShapeOf r (.obj t) = true) : r.isObj = true := by
  rw [hasShapeOf.eq_def] at h
  cases r <;> simp_all [Json.isObj]

/-- `backfillKey` on a mapping never raises: it keeps the dict when the key
is present and appends an empty list otherwise. -/
theorem backfillKey_obj (kvs : List (String × Json)) (k : String) :
    backfillKey (.obj kvs) k =
      .ok (.obj (if kvs.any (fun kv => kv.1 == k) then kvs
                 else kvs ++ [(k, .arr [])])) := by
  unfold backfillKey
  cases h : kvs.any (fun kv => kv.1 == k) <;>
    simp [pyContains, h, pySetItem, objSet, assocSet] <;> rfl

/-- C2 amended: the three extraction operations never raise; each returns
its category's default empty shape when the LLM call fails or the reply is
non-JSON; `analyze_personal_info` always returns a mapping (the medical and
demographic operations need not — see the counterexample). -/
theorem extraction_ops_default_on_failure (llm : Except PyErr String)
    (decode : String → Except PyErr Json) (txt : String) (e : PyErr) :
    (analyze_personal_info llm decode).isObj = true
  ∧ analyze_personal_info (.error e) decode = default_structure
  ∧ analyze_medical_history (.error e) decode = default_medical
  ∧ analyze_demographic_info (.error e) decode = default_demographic
  ∧ (decode (clean_response_text txt) = .error e →
      analyze_personal_info (.ok txt) decode = default_structure
      ∧ analyze_medical_history (.ok txt) decode = default_medical
      ∧ analyze_demographic_info (.ok txt) decode = default_demographic) := by
  refine ⟨?_, rfl, rfl, rfl, ?_⟩
  · cases llm with
    | error e2 => rfl
    | ok t =>
      have hbody : personalBody (.ok t) decode =
          (do
            let analyzed ← decode (clean_response_text t)
            sanitize analyzed default_structure) := rfl
      unfold analyze_personal_info
      rw [hbody]
      cases hd : decode (clean_response_text t) with
      | error e2 => rfl
      | ok d =>
        have hred : (do
            let analyzed ← (Except.ok d : Except PyErr Json)
            sanitize analyzed default_structure) = sanitize d default_structure := rfl
        rw [hred]
        cases hs : sanitize d default_structure with
        | error e2 => rfl
        | ok r =>
          have := isObj_of_hasShapeOf_obj r _ (sanitize_ok_hasShapeOf default_structure d r hs)
          simpa using this
  · intro hde
    refine ⟨?_, ?_, ?_⟩
    · have hbody : personalBody (.ok txt) decode =
          (do
            let analyzed ← decode (clean_response_text txt)
            sanitize analyzed default_structure) := rfl
      unfold analyze_personal_info
      rw [hbody, hde]
      rfl
    · have hbody : medicalBody (.ok txt) decode =
          (if clean_response_text txt == "" then pure default_medical
           else do
            let analyzed ← decode (clean_response_text txt)
            let d1 ← backfillKey analyzed "illnesses"
            let d2 ← backfillKey d1 "surgeries"
            let d3 ← backfillKey d2 "allergies"
            backfillKey d3 "current_medications") := rfl
      unfold analyze_medical_history
      rw [hbody]
      cases hc : clean_response_text txt == "" with
      | true => rfl
      | false =>
        rw [if_neg (by simp [hc])]
        rw [hde]
        rfl
    · have hbody : demographicBody (.ok txt) decode =
          (if clean_response_text txt == "" then pure default_demographic
           else do
            let analyzed ← decode (clean_response_text txt)
            demographicKeys.foldlM backfillDemographicKey analyzed) := rfl
      unfold analyze_demographic_info
      rw [hbody]
      cases hc : clean_response_text txt == "" with
      | true => rfl
      | false =>
        rw [if_neg (by simp [hc])]
        rw [hde]
        rfl

theorem extraction_ops_default_on_failure_witness :
    analyze_personal_info (.ok "oops") (fun _ => .error .typeError) = default_structure
    ∧ analyze_medical_history (.ok "oops") (fun _ => .error .typeError) = default_medical
    ∧ analyze_demographic_info (.ok "oops") (fun _ => .error .typeError) = default_demographic :=
  (extraction_ops_default_on_failure (.ok "oops") (fun _ => .error .typeError)
    "oops" .typeError).2.2.2.2 rfl

/-- C2 counterexample: `analyze_medical_history` does not always return a
mapping.  A reply that decodes to a plain string containing all four key
names as substrings passes every `key not in analyzed_data` check (Python
`in` on a string is a substring test) and is returned unchanged. -/
theorem analyze_medical_history_returns_non_mapping :
    analyze_medical_history
        (.ok "\"illnesses surgeries allergies current_medications\"") quotedDecode
      = .str nonMappingReply
    ∧ (analyze_medical_history
        (.ok "\"illnesses surgeries allergies current_medications\"") quotedDecode).isObj
      = false := by
  constructor <;> rfl

/-- Reduction of `Except` bind on a success value. -/
theorem ok_bind {α β : Type} (a : α) (f : α → Except PyErr β) :
    ((Except.ok a : Except PyErr α) >>= f) = f a := rfl

/-- C3: on a reply that decodes to a mapping, `analyze_medical_history`
returns that mapping unchanged except that each of the four list keys, when
absent, is appended (in source order) bound to an empty sequence; present
keys keep their decoded values with no recursive shape enforcement. -/
theorem analyze_medical_history_on_mapping (txt : String)
    (decode : String → Except PyErr Json) (kvs : List (String × Json))
    (hne : clean_response_text txt ≠ "")
    (hdec : decode (clean_response_text txt) = .ok (.obj kvs)) :
    analyze_medical_history (.ok txt) decode =
      .obj (kvs ++ (medicalKeys.filter
        (fun k => !(kvs.any (fun kv => kv.1 == k)))).map (fun k => (k, Json.arr []))) := by
  have hbody : medicalBody (.ok txt) decode =
      (if clean_response_text txt == "" then pure default_medical
       else do
        let analyzed ← decode (clean_response_text txt)
        let d1 ← backfillKey analyzed "illnesses"
        let d2 ← backfillKey d1 "surgeries"
        let d3 ← backfillKey d2 "allergies"
        backfillKey d3 "current_medications") := rfl
  unfold analyze_medical_history
  rw [hbody, if_neg (by simp [hne]), hdec]
  have hred : ∀ (f : Json → Except PyErr Json),
      (do
        let analyzed ← (Except.ok (Json.obj kvs) : Except PyErr Json)
        f analyzed) = f (Json.obj kvs) := fun _ => rfl
  rw [hred]
  cases h1 : kvs.any (fun kv => kv.1 == "illnesses") <;>
  cases h2 : kvs.any (fun kv => kv.1 == "surgeries") <;>
  cases h3 : kvs.any (fun kv => kv.1 == "allergies") <;>
  cases h4 : kvs.any (fun kv => kv.1 == "current_medications") <;>
    simp [backfillKey_obj, h1, h2, h3, h4, medicalKeys, List.any_append, ok_bind]

theorem analyze_medical_history_on_mapping_witness :
    analyze_medical_history (.ok "j")
        (fun _ => .ok (.obj [("surgeries", .str "keep")])) =
      .obj ([("surgeries", Json.str "keep")] ++ (medicalKeys.filter
        (fun k => !([("surgeries", Json.str "keep")].any (fun kv => kv.1 == k)))).map
          (fun k => (k, Json.arr []))) :=
  analyze_medical_history_on_mapping "j"
    (fun _ => .ok (.obj [("surgeries", .str "keep")]))
    [("surgeries", .str "keep")] (by decide) rfl

/-! ## Association-list lemmas -/

theorem assocLookup_set_self [BEq κ] [LawfulBEq κ] (kvs : List (κ × α)) (k : κ) (v : α) :
    ((assocSet kvs k v).find? (fun kv => kv.1 == k)).map (·.2) = some v := by
  unfold assocSet
  by_cases h : kvs.any (fun kv => kv.1 == k) = true
  · rw [if_pos h]
    induction kvs with
    | nil => simp at h
    | cons a rest ih =>
      obtain ⟨a1, a2⟩ := a
      by_cases hh : (a1 == k) = true
      · simp only [List.map_cons, hh, if_true]
        rw [List.find?_cons_of_pos _ (by simp)]
        rfl
      · simp only [List.any_cons] at h
        rw [Bool.or_eq_true] at h
        rcases h with h1 | h2
        · exact absurd h1 hh
        · simp only [List.map_cons, hh, if_false]
          rw [List.find?_cons_of_neg _ (by simp [hh])]
          exact ih h2
  · rw [if_neg h]
    rw [List.find?_append]
    have hnone : kvs.find? (fun kv => kv.1 == k) = none := by
      rw [List.find?_eq_none]
      intro x hx hbeq
      exact h (List.any_eq_true.mpr ⟨x, hx, hbeq⟩)
    rw [hnone]
    simp [List.find?]

theorem assocLookup_set_other [BEq κ] [LawfulBEq κ] (kvs : List (κ × α)) (k q : κ) (v : α)
    (hne : ¬ q = k) :
    ((assocSet kvs k v).find? (fun kv => kv.1 == q)).map (·.2) =
      (kvs.find? (fun kv => kv.1 == q)).map (·.2) := by
  have hkq : (k == q) = false := by
    rw [beq_eq_false_iff_ne]
    exact fun hqe => hne hqe.symm
  unfold assocSet
  by_cases h : kvs.any (fun kv => kv.1 == k) = true
  · rw [if_pos h]
    clear h
    induction kvs with
    | nil => rfl
    | cons a rest ih =>
      obtain ⟨a1, a2⟩ := a
      by_cases hh : (a1 == k) = true
      · have ha1 : a1 = k := eq_of_beq hh
        subst ha1
        simp [List.find?, hkq, ih, -List.find?_map]
      · by_cases hq : (a1 == q) = true
        · simp [List.find?, hh, hq, -List.find?_map]
        · simp [List.find?, hh, hq, ih, -List.find?_map]
  · rw [if_neg h, List.find?_append]
    cases hf : kvs.find? (fun kv => kv.1 == q) with
    | some x => simp [hf]
    | none => simp [hf, List.find?, hkq]

theorem assocSet_mem [BEq κ] (kvs : List (κ × α)) (k : κ) (v : α) (pr : κ × α)
    (h : pr ∈ assocSet kvs k v) : pr ∈ kvs ∨ pr = (k, v) := by
  unfold assocSet at h
  by_cases hh : kvs.any (fun kv => kv.1 == k) = true
  · rw [if_pos hh] at h
    obtain ⟨a, ha, hfa⟩ := List.mem_map.mp h
    by_cases hk : (a.1 == k) = true
    · right
      rw [if_pos hk] at hfa
      exact hfa.symm
    · left
      rw [if_neg hk] at hfa
      exact hfa ▸ ha
  · rw [if_neg hh] at h
    rcases List.mem_append.mp h with h1 | h2
    · exact Or.inl h1
    · exact Or.inr (List.mem_singleton.mp h2)

theorem assocSet_keys_of_any [BEq κ] [LawfulBEq κ] (kvs : List (κ × α)) (k : κ) (v : α)
    (h : kvs.any (fun kv => kv.1 == k) = true) :
    (assocSet kvs k v).map Prod.fst = kvs.map Prod.fst := by
  unfold assocSet
  rw [if_pos h, List.map_map]
  apply List.map_congr_left
  intro a _
  by_cases hk : (a.1 == k) = true
  · simp [hk, eq_of_beq hk]
  · simp [hk]

theorem assocSet_of_not_any [BEq κ] (kvs : List (κ × α)) (k : κ) (v : α)
    (h : kvs.any (fun kv => kv.1 == k) = false) :
    assocSet kvs k v = kvs ++ [(k, v)] := by
  unfold assocSet
  rw [if_neg (by simp [h])]

/-! ## Patient Store lemmas -/

theorem lookupKey_objSet_self (kvs : List (String × Json)) (k : String) (v : Json) :
    lookupKey (objSet kvs k v) k = some v :=
  assocLookup_set_self kvs k v

theorem lookupKey_objSet_other (kvs : List (String × Json)) (k q : String) (v : Json)
    (hne : ¬ q = k) :
    lookupKey (objSet kvs k v) q = lookupKey kvs q :=
  assocLookup_set_other kvs k q v hne

theorem dbLookup_dbSet_self (db : List (Int × Json)) (pid : Int) (r : Json) :
    dbLookup (dbSet db pid r) pid = some r :=
  assocLookup_set_self db pid r

theorem dbLookup_dbSet_other (db : List (Int × Json)) (pid q : Int) (r : Json)
    (hne : ¬ q = pid) :
    dbLookup (dbSet db pid r) q = dbLookup db q :=
  assocLookup_set_other db pid q r hne

theorem any_key_eq_lookup_isSome (kvs : List (String × Json)) (k : String) :
    kvs.any (fun kv => kv.1 == k) = (lookupKey kvs k).isSome := by
  cases hf : kvs.find? (fun kv => kv.1 == k) with
  | some x =>
    have hmem := List.mem_of_find?_eq_some hf
    have hpred := List.find?_some hf
    simp only [lookupKey, hf, Option.map_some, Option.isSome_some]
    exact List.any_eq_true.mpr ⟨x, hmem, hpred⟩
  | none =>
    show (kvs.any fun kv => kv.1 == k) = ((kvs.find? (fun kv => kv.1 == k)).map (·.2)).isSome
    rw [hf]
    show (kvs.any fun kv => kv.1 == k) = false
    rw [List.any_eq_false]
    exact fun x hx => by
      have := List.find?_eq_none.mp hf x hx
      simpa using this

theorem pySubscript_obj_of_lookup (kvs : List (String × Json)) (k : String) (v : Json)
    (h : lookupKey kvs k = some v) : pySubscript (.obj kvs) k = .ok v := by
  show (match lookupKey kvs k with
        | some v => (Except.ok v : Except PyErr Json)
        | none => .error .keyError) = .ok v
  rw [h]

theorem find_by_email_mem (db : List (Int × Json)) (email : Json) (pid : Int) (r : Json)
    (h : find_by_email db email = .ok (some (pid, r))) : (pid, r) ∈ db := by
  induction db with
  | nil => simp [find_by_email] at h
  | cons a rest ih =>
    obtain ⟨p0, r0⟩ := a
    have hstep : find_by_email ((p0, r0) :: rest) email =
        (do
          let pinfo ← pySubscript r0 "personal_information"
          let em ← pySubscript pinfo "email"
          if pyEq em email then pure (some (p0, r0)) else find_by_email rest email) := rfl
    rw [hstep] at h
    cases hp : pySubscript r0 "personal_information" with
    | error e => rw [hp] at h; exact Except.noConfusion h
    | ok pinfo =>
      rw [hp] at h
      have h2 : (do
          let em ← pySubscript pinfo "email"
          if pyEq em email then pure (some (p0, r0))
          else find_by_email rest email) = Except.ok (some (pid, r)) := h
      cases he : pySubscript pinfo "email" with
      | error e => rw [he] at h2; exact Except.noConfusion h2
      | ok em =>
        rw [he] at h2
        cases hq : pyEq em email with
        | true =>
          have h3 : (Except.ok (some (p0, r0)) : Except PyErr (Option (Int × Json))) =
              Except.ok (some (pid, r)) := by
            rw [← h2]
            show _ = (if pyEq em email then pure (some (p0, r0)) else find_by_email rest email)
            rw [hq]
            rfl
          have h4 := Except.ok.inj h3
          have h5 := Option.some.inj h4
          rw [← h5]
          exact List.mem_cons_self _ _
        | false =>
          have h3 : find_by_email rest email = Except.ok (some (pid, r)) := by
            rw [← h2]
            show _ = (if pyEq em email then pure (some (p0, r0)) else find_by_email rest email)
            rw [hq]
            rfl
          exact List.mem_cons_of_mem _ (ih h3)

theorem createNew_obj (st : StoreState) (kvs : List (String × Json)) :
    createNew st (.obj kvs) =
      (⟨dbSet st.patients_db st.patient_id_counter
          (Json.obj (objSet kvs "patient_id" (.num st.patient_id_counter))),
        st.patient_id_counter + 1⟩,
       .ok (st.patient_id_counter,
            Json.obj (objSet kvs "patient_id" (.num st.patient_id_counter)))) := rfl

theorem counter_not_in_db (st : StoreState) (hWF : WF st) :
    st.patients_db.any (fun kv => kv.1 == st.patient_id_counter) = false := by
  obtain ⟨hc, hnd, hab⟩ := hWF
  rw [List.any_eq_false]
  intro pr hpr
  have := (hab pr hpr).2.1
  simp only [beq_iff_eq]
  omega

theorem WF_createNew (st : StoreState) (info : Json) (hWF : WF st) :
    WF (createNew st info).1 := by
  obtain ⟨hc, hnd, hab⟩ := hWF
  cases info with
  | obj kvs =>
    rw [createNew_obj]
    have habs := counter_not_in_db st ⟨hc, hnd, hab⟩
    refine ⟨by simp; omega, ?_, ?_⟩
    · show ((dbSet st.patients_db st.patient_id_counter _).map Prod.fst).Nodup
      unfold dbSet
      rw [assocSet_of_not_any _ _ _ habs, List.map_append]
      rw [List.nodup_append]
      refine ⟨hnd, by simp, ?_⟩
      intro x hx
      simp only [List.map_cons, List.map_nil, List.mem_singleton]
      obtain ⟨pr, hpr, hfst⟩ := List.mem_map.mp hx
      have := (hab pr hpr).2.1
      intro hcon
      rw [hcon] at hfst
      omega
    · intro pr hpr
      show 1 ≤ pr.1 ∧ pr.1 < st.patient_id_counter + 1 ∧
        pr.2.lookup "patient_id" = some (.num pr.1) ∧ pr.2.isObj = true
      have hmem2 : pr ∈ st.patients_db ∨
          pr = (st.patient_id_counter,
                Json.obj (objSet kvs "patient_id" (.num st.patient_id_counter))) :=
        assocSet_mem _ _ _ _ hpr
      rcases hmem2 with hold | hnew
      · have := hab pr hold
        exact ⟨this.1, by omega, this.2.2⟩
      · subst hnew
        refine ⟨hc, by omega, ?_, rfl⟩
        show lookupKey (objSet kvs "patient_id" (.num st.patient_id_counter)) "patient_id" =
          some (.num st.patient_id_counter)
        exact lookupKey_objSet_self _ _ _
  | null =>
    show WF (⟨st.patients_db, st.patient_id_counter + 1⟩ : StoreState)
    exact ⟨by show 1 ≤ st.patient_id_counter + 1; omega, hnd, fun pr h => by
      have := hab pr h
      exact ⟨this.1, by show pr.1 < st.patient_id_counter + 1; omega, this.2.2⟩⟩
  | bool b =>
    show WF (⟨st.patients_db, st.patient_id_counter + 1⟩ : StoreState)
    exact ⟨by show 1 ≤ st.patient_id_counter + 1; omega, hnd, fun pr h => by
      have := hab pr h
      exact ⟨this.1, by show pr.1 < st.patient_id_counter + 1; omega, this.2.2⟩⟩
  | num n =>
    show WF (⟨st.patients_db, st.patient_id_counter + 1⟩ : StoreState)
    exact ⟨by show 1 ≤ st.patient_id_counter + 1; omega, hnd, fun pr h => by
      have := hab pr h
      exact ⟨this.1, by show pr.1 < st.patient_id_counter + 1; omega, this.2.2⟩⟩
  | str s =>
    show WF (⟨st.patients_db, st.patient_id_counter + 1⟩ : StoreState)
    exact ⟨by show 1 ≤ st.patient_id_counter + 1; omega, hnd, fun pr h => by
      have := hab pr h
      exact ⟨this.1, by show pr.1 < st.patient_id_counter + 1; omega, this.2.2⟩⟩
  | arr xs =>
    show WF (⟨st.patients_db, st.patient_id_counter + 1⟩ : StoreState)
    exact ⟨by show 1 ≤ st.patient_id_counter + 1; omega, hnd, fun pr h => by
      have := hab pr h
      exact ⟨this.1, by show pr.1 < st.patient_id_counter + 1; omega, this.2.2⟩⟩

theorem createBranch_WF (st : StoreState) (data pi : Json) (f : Json → Json)
    (hWF : WF st) : WF (createBranch st data pi f).1 := by
  unfold createBranch
  cases hg1 : pyGet data "demographic_information" (.obj []) with
  | error e => exact hWF
  | ok demo =>
    cases hg2 : pyGet data "medical_history" (.str "") with
    | error e => exact hWF
    | ok mtext =>
      have h1 := WF_createNew st
        (Json.obj [("personal_information", pi), ("demographic_information", demo),
                   ("medical_history", f mtext)]) hWF
      cases pySubscript pi "first_name" <;> cases pySubscript pi "last_name" <;> exact h1

theorem save_patient_pos (st : StoreState) (P3 : Json) (kx : Int)
    (hk0 : (kx == 0) = false) :
    save_patient st P3 (some kx) =
      (⟨dbSet st.patients_db kx P3, st.patient_id_counter⟩, .ok (kx, P3)) := by
  show (if (kx == 0) = true then createNew st P3
        else (⟨dbSet st.patients_db kx P3, st.patient_id_counter⟩, .ok (kx, P3))) = _
  rw [hk0]
  rfl

theorem updateFinish_state (st : StoreState) (ex P3 : Json) (kx : Int)
    (hk0 : (kx == 0) = false) :
    (updateFinish st ex (kx, P3)).1 =
      ⟨dbSet st.patients_db kx P3, st.patient_id_counter⟩ := by
  unfold updateFinish
  rw [save_patient_pos st P3 kx hk0]
  cases hg : get_updated_fields ex P3 <;> simp [hg]

theorem updateBranch_spec (st : StoreState) (data pi ex : Json) (f : Json → Json) (kx : Int)
    (hWF : WF st) (hmem : (kx, ex) ∈ st.patients_db) (hdata : data.isObj = true) :
    ∃ p3,
      (updateBranch st data pi ex f).1 =
        ⟨dbSet st.patients_db kx p3, st.patient_id_counter⟩
      ∧ p3.isObj = true
      ∧ p3.lookup "patient_id" = some (.num kx)
      ∧ p3.lookup "personal_information" = some pi
      ∧ p3.lookup "demographic_information" =
          some ((data.lookup "demographic_information").getD (.obj []))
      ∧ (∀ m, data.lookup "medical_history" = some m →
          p3.lookup "medical_history" = some (f m))
      ∧ (data.lookup "medical_history" = none →
          p3.lookup "medical_history" = ex.lookup "medical_history") := by
  obtain ⟨hc, hnd, hab⟩ := hWF
  have hex := hab (kx, ex) hmem
  obtain ⟨ekvs, rfl⟩ : ∃ ekvs, ex = Json.obj ekvs := by
    have h4 := hex.2.2.2
    cases ex with
    | obj ekvs => exact ⟨ekvs, rfl⟩
    | null => simp [Json.isObj] at h4
    | bool b => simp [Json.isObj] at h4
    | num n => simp [Json.isObj] at h4
    | str s => simp [Json.isObj] at h4
    | arr xs => simp [Json.isObj] at h4
  obtain ⟨dkvs, rfl⟩ : ∃ dkvs, data = Json.obj dkvs := by
    cases data with
    | obj dkvs => exact ⟨dkvs, rfl⟩
    | null => simp [Json.isObj] at hdata
    | bool b => simp [Json.isObj] at hdata
    | num n => simp [Json.isObj] at hdata
    | str s => simp [Json.isObj] at hdata
    | arr xs => simp [Json.isObj] at hdata
  have hexlook : lookupKey ekvs "patient_id" = some (.num kx) := hex.2.2.1
  have hs1 : pySubscript (Json.obj ekvs) "patient_id" = .ok (.num kx) :=
    pySubscript_obj_of_lookup _ _ _ hexlook
  have hk0 : (kx == 0) = false := by
    rw [beq_eq_false_iff_ne]
    have := hex.1
    omega
  cases hmed : dkvs.any (fun kv => kv.1 == "medical_history") with
  | true =>
    have hsome : (lookupKey dkvs "medical_history").isSome = true := by
      rw [← any_key_eq_lookup_isSome]
      exact hmed
    obtain ⟨m, hm⟩ := Option.isSome_iff_exists.mp hsome
    have hcont : pyContains (Json.obj dkvs) "medical_history" = .ok true := by
      show Except.ok (dkvs.any fun kv => kv.1 == "medical_history") = .ok true
      rw [hmed]
    have hsub : pySubscript (Json.obj dkvs) "medical_history" = .ok m :=
      pySubscript_obj_of_lookup _ _ _ hm
    have hchain : (do
        let pidJ ← pySubscript (Json.obj ekvs) "patient_id"
        let pid ← jsonToIntId pidJ
        let p1 ← pySetItem (Json.obj ekvs) "personal_information" pi
        let demo ← pyGet (Json.obj dkvs) "demographic_information" (.obj [])
        let p2 ← pySetItem p1 "demographic_information" demo
        let hasMed ← pyContains (Json.obj dkvs) "medical_history"
        let p3 ← if hasMed then do
            let mtext ← pySubscript (Json.obj dkvs) "medical_history"
            pySetItem p2 "medical_history" (f mtext)
          else pure p2
        pure (pid, p3) : Except PyErr (Int × Json)) =
        .ok (kx, Json.obj (objSet (objSet (objSet ekvs "personal_information" pi)
          "demographic_information" ((lookupKey dkvs "demographic_information").getD (.obj [])))
          "medical_history" (f m))) := by
      rw [hs1, hcont, hsub]
      rfl
    refine ⟨Json.obj (objSet (objSet (objSet ekvs "personal_information" pi)
        "demographic_information" ((lookupKey dkvs "demographic_information").getD (.obj [])))
        "medical_history" (f m)), ?_, rfl, ?_, ?_, ?_, ?_, ?_⟩
    · unfold updateBranch
      rw [hchain]
      exact updateFinish_state st _ _ kx hk0
    · show lookupKey _ "patient_id" = some (.num kx)
      rw [lookupKey_objSet_other _ _ _ _ (by decide),
          lookupKey_objSet_other _ _ _ _ (by decide),
          lookupKey_objSet_other _ _ _ _ (by decide)]
      exact hexlook
    · show lookupKey _ "personal_information" = some pi
      rw [lookupKey_objSet_other _ _ _ _ (by decide),
          lookupKey_objSet_other _ _ _ _ (by decide)]
      exact lookupKey_objSet_self _ _ _
    · show lookupKey _ "demographic_information" = _
      rw [lookupKey_objSet_other _ _ _ _ (by decide)]
      exact lookupKey_objSet_self _ _ _
    · intro m2 hm2
      have hmm : m2 = m := by
        have h5 : lookupKey dkvs "medical_history" = some m2 := hm2
        rw [hm] at h5
        exact (Option.some.inj h5).symm
      subst hmm
      show lookupKey _ "medical_history" = some (f m2)
      exact lookupKey_objSet_self _ _ _
    · intro hnone
      have h5 : lookupKey dkvs "medical_history" = none := hnone
      rw [h5] at hsome
      simp at hsome
  | false =>
    have hcont : pyContains (Json.obj dkvs) "medical_history" = .ok false := by
      show Except.ok (dkvs.any fun kv => kv.1 == "medical_history") = .ok false
      rw [hmed]
    have hchain : (do
        let pidJ ← pySubscript (Json.obj ekvs) "patient_id"
        let pid ← jsonToIntId pidJ
        let p1 ← pySetItem (Json.obj ekvs) "personal_information" pi
        let demo ← pyGet (Json.obj dkvs) "demographic_information" (.obj [])
        let p2 ← pySetItem p1 "demographic_information" demo
        let hasMed ← pyContains (Json.obj dkvs) "medical_history"
        let p3 ← if hasMed then do
            let mtext ← pySubscript (Json.obj dkvs) "medical_history"
            pySetItem p2 "medical_history" (f mtext)
          else pure p2
        pure (pid, p3) : Except PyErr (Int × Json)) =
        .ok (kx, Json.obj (objSet (objSet ekvs "personal_information" pi)
          "demographic_information"
          ((lookupKey dkvs "demographic_information").getD (.obj [])))) := by
      rw [hs1, hcont]
      rfl
    refine ⟨Json.obj (objSet (objSet ekvs "personal_information" pi)
        "demographic_information" ((lookupKey dkvs "demographic_information").getD (.obj []))),
        ?_, rfl, ?_, ?_, ?_, ?_, ?_⟩
    · unfold updateBranch
      rw [hchain]
      exact updateFinish_state st _ _ kx hk0
    · show lookupKey _ "patient_id" = some (.num kx)
      rw [lookupKey_objSet_other _ _ _ _ (by decide),
          lookupKey_objSet_other _ _ _ _ (by decide)]
      exact hexlook
    · show lookupKey _ "personal_information" = some pi
      rw [lookupKey_objSet_other _ _ _ _ (by decide)]
      exact lookupKey_objSet_self _ _ _
    · show lookupKey _ "demographic_information" = _
      exact lookupKey_objSet_self _ _ _
    · intro m2 hm2
      have hsome : (lookupKey dkvs "medical_history").isSome = true := by
        have h5 : lookupKey dkvs "medical_history" = some m2 := hm2
        rw [h5]
        rfl
      rw [← any_key_eq_lookup_isSome, hmed] at hsome
      exact absurd hsome (by simp)
    · intro _
      show lookupKey _ "medical_history" = lookupKey ekvs "medical_history"
      rw [lookupKey_objSet_other _ _ _ _ (by decide),
          lookupKey_objSet_other _ _ _ _ (by decide)]

theorem updateBranch_WF (st : StoreState) (data pi ex : Json) (f : Json → Json) (kx : Int)
    (hWF : WF st) (hmem : (kx, ex) ∈ st.patients_db) (hdata : data.isObj = true) :
    WF (updateBranch st data pi ex f).1 := by
  obtain ⟨p3, hst, hobj, hpid, -⟩ := updateBranch_spec st data pi ex f kx hWF hmem hdata
  rw [hst]
  obtain ⟨hc, hnd, hab⟩ := hWF
  have hex := hab (kx, ex) hmem
  refine ⟨hc, ?_, ?_⟩
  · show ((dbSet st.patients_db kx p3).map Prod.fst).Nodup
    unfold dbSet
    rw [assocSet_keys_of_any _ _ _ (List.any_eq_true.mpr ⟨(kx, ex), hmem, by simp⟩)]
    exact hnd
  · intro pr hpr
    rcases assocSet_mem _ _ _ _ hpr with hold | hnew
    · exact hab pr hold
    · subst hnew
      exact ⟨hex.1, hex.2.1, hpid, hobj⟩

/-- The route's only state change goes through `save_patient`; every path
preserves the store invariant. -/
theorem validateRequest_ok_isObj (data : Json) (vo : ValidOutcome)
    (h : validateRequest data = .ok vo) : data.isObj = true := by
  cases data with
  | obj kvs => rfl
  | null => exact Except.noConfusion h
  | bool b => exact Except.noConfusion h
  | num n => exact Except.noConfusion h
  | str s => exact Except.noConfusion h
  | arr xs => exact Except.noConfusion h

theorem afterValidate_WF (st : StoreState) (data : Json) (f : Json → Json)
    (vo : ValidOutcome) (hWF : WF st) (hdata : data.isObj = true) :
    WF (afterValidate st data f vo).1 := by
  cases vo with
  | bad msg => exact hWF
  | good pi email =>
    show WF ((match find_by_email st.patients_db email with
      | .error _ => (st, RegResult.badRequest "exception")
      | .ok (some (_, existingRec)) => updateBranch st data pi existingRec f
      | .ok none => createBranch st data pi f) :
        StoreState × RegResult).1
    cases hf : find_by_email st.patients_db email with
    | error e => exact hWF
    | ok oexist =>
      cases oexist with
      | none => exact createBranch_WF st data pi f hWF
      | some pr =>
        obtain ⟨kx, ex⟩ := pr
        exact updateBranch_WF st data pi ex f kx hWF
          (find_by_email_mem _ _ _ _ hf) hdata

theorem register_preserves_WF (st : StoreState) (data : Json) (f : Json → Json)
    (hWF : WF st) : WF (register_or_update_patient st data f).1 := by
  unfold register_or_update_patient
  cases hval : validateRequest data with
  | error e => exact hWF
  | ok vo =>
    exact afterValidate_WF st data f vo hWF (validateRequest_ok_isObj data vo hval)

/-- C6: patient ids come from the process-wide counter: the counter starts
at 1 and the first creation from the initial state assigns id 1; from any
invariant-satisfying state, a creation assigns the current counter value,
which is strictly greater than every id in the store and in particular
never reuses one; the invariant holds initially and is preserved by the
route, the only operation that touches the store. -/
theorem patient_id_counter_properties (st : StoreState) (data : Json)
    (f : Json → Json) (kvs : List (String × Json)) (hWF : WF st) :
    WF initState
  ∧ initState.patient_id_counter = 1
  ∧ (∃ r, (save_patient initState (.obj kvs) none).2 = .ok (1, r))
  ∧ (∃ r, (save_patient st (.obj kvs) none).2 = .ok (st.patient_id_counter, r))
  ∧ (∀ pid, dbHasKey st.patients_db pid = true → pid < st.patient_id_counter)
  ∧ dbHasKey st.patients_db st.patient_id_counter = false
  ∧ WF (register_or_update_patient st data f).1 := by
  refine ⟨⟨by simp [initState], by simp [initState], by simp [initState]⟩,
    rfl, ⟨_, rfl⟩, ⟨_, rfl⟩, ?_, ?_, register_preserves_WF st data f hWF⟩
  · intro pid hpid
    obtain ⟨pr, hpr, hbeq⟩ := List.any_eq_true.mp hpid
    have := (hWF.2.2 pr hpr).2.1
    rw [beq_iff_eq] at hbeq
    omega
  · exact counter_not_in_db st hWF

theorem patient_id_counter_properties_witness :
    WF initState
  ∧ initState.patient_id_counter = 1
  ∧ (∃ r, (save_patient initState
      (.obj [("personal_information", Json.obj [])]) none).2 = .ok (1, r))
  ∧ (∃ r, (save_patient initState
      (.obj [("personal_information", Json.obj [])]) none).2 =
        .ok (initState.patient_id_counter, r))
  ∧ (∀ pid, dbHasKey initState.patients_db pid = true →
      pid < initState.patient_id_counter)
  ∧ dbHasKey initState.patients_db initState.patient_id_counter = false
  ∧ WF (register_or_update_patient initState (Json.obj []) (fun _ => Json.obj [])).1 :=
  patient_id_counter_properties initState (Json.obj []) (fun _ => Json.obj [])
    [("personal_information", Json.obj [])]
    ⟨by simp [initState], by simp [initState], by simp [initState]⟩

/-- C7: a register-or-update request whose email matches a stored record
rewrites exactly that record: the stored record keeps its `patient_id`
(and the counter is untouched, so no id is ever reassigned), the
personal and demographic sections are replaced wholesale, the medical
history is replaced only when the request carries a `medical_history` key,
and every other stored record is unchanged. -/
theorem register_update_preserves_identity (st : StoreState) (data pi email ex : Json)
    (f : Json → Json) (kx : Int) (hWF : WF st)
    (hval : validateRequest data = .ok (.good pi email))
    (hfind : find_by_email st.patients_db email = .ok (some (kx, ex))) :
    ∃ p3,
      (register_or_update_patient st data f).1 =
        ⟨dbSet st.patients_db kx p3, st.patient_id_counter⟩
      ∧ dbLookup (register_or_update_patient st data f).1.patients_db kx = some p3
      ∧ (∀ q, ¬ q = kx →
          dbLookup (register_or_update_patient st data f).1.patients_db q =
            dbLookup st.patients_db q)
      ∧ (register_or_update_patient st data f).1.patient_id_counter =
          st.patient_id_counter
      ∧ p3.lookup "patient_id" = ex.lookup "patient_id"
      ∧ p3.lookup "personal_information" = some pi
      ∧ p3.lookup "demographic_information" =
          some ((data.lookup "demographic_information").getD (.obj []))
      ∧ (∀ m, data.lookup "medical_history" = some m →
          p3.lookup "medical_history" = some (f m))
      ∧ (data.lookup "medical_history" = none →
          p3.lookup "medical_history" = ex.lookup "medical_history") := by
  have hmem := find_by_email_mem _ _ _ _ hfind
  have hdata := validateRequest_ok_isObj data _ hval
  obtain ⟨p3, hst, hobj, hpid, hpers, hdemo, hmeds, hmedn⟩ :=
    updateBranch_spec st data pi ex f kx hWF hmem hdata
  have hreg : register_or_update_patient st data f = updateBranch st data pi ex f := by
    unfold register_or_update_patient
    rw [hval]
    have h2 : afterValidate st data f (.good pi email) =
        ((match find_by_email st.patients_db email with
          | .error _ => (st, RegResult.badRequest "exception")
          | .ok (some (_, existingRec)) => updateBranch st data pi existingRec f
          | .ok none => createBranch st data pi f) : StoreState × RegResult) := rfl
    show afterValidate st data f (.good pi email) = updateBranch st data pi ex f
    rw [h2, hfind]
  have hexl := (hWF.2.2 (kx, ex) hmem).2.2.1
  refine ⟨p3, by rw [hreg]; exact hst, ?_, ?_, ?_, ?_, hpers, hdemo, hmeds, hmedn⟩
  · rw [hreg, hst]
    exact dbLookup_dbSet_self _ _ _
  · intro q hq
    rw [hreg, hst]
    exact dbLookup_dbSet_other _ _ _ _ hq
  · rw [hreg, hst]
  · rw [hpid, hexl]

theorem exState_WF : WF exState := by
  refine ⟨by norm_num [exState], by simp [exState], ?_⟩
  intro pr hpr
  have hpr2 : pr = (1, exRecord) := by simpa [exState] using hpr
  subst hpr2
  exact ⟨by norm_num, by norm_num [exState], rfl, rfl⟩

theorem exState_find : find_by_email exState.patients_db (.str "a@x.com") =
    .ok (some (1, exRecord)) := by
  show (do
    let pinfo ← pySubscript exRecord "personal_information"
    let em ← pySubscript pinfo "email"
    if pyEq em (.str "a@x.com") then pure (some (1, exRecord))
    else find_by_email [] (.str "a@x.com")) = .ok (some (1, exRecord))
  rw [show pySubscript exRecord "personal_information" = .ok exPersonal from rfl]
  show (do
    let em ← pySubscript exPersonal "email"
    if pyEq em (.str "a@x.com") then
      (pure (some (1, exRecord)) : Except PyErr (Option (Int × Json)))
    else find_by_email [] (.str "a@x.com")) = .ok (some (1, exRecord))
  rw [show pySubscript exPersonal "email" = .ok (.str "a@x.com") from rfl]
  show (if pyEq (.str "a@x.com") (.str "a@x.com") then
      (pure (some (1, exRecord)) : Except PyErr (Option (Int × Json)))
    else find_by_email [] (.str "a@x.com")) = .ok (some (1, exRecord))
  rw [show pyEq (.str "a@x.com") (.str "a@x.com") = true from by simp [pyEq]]
  rfl

theorem register_update_preserves_identity_witness :
    ∃ p3,
      (register_or_update_patient exState exRequest (fun _ => default_medical)).1 =
        ⟨dbSet exState.patients_db 1 p3, exState.patient_id_counter⟩
      ∧ p3.lookup "patient_id" = exRecord.lookup "patient_id"
      ∧ p3.lookup "personal_information" = some exPersonal := by
  obtain ⟨p3, h1, _, _, _, h5, h6, _⟩ :=
    register_update_preserves_identity exState exRequest exPersonal (.str "a@x.com")
      exRecord (fun _ => default_medical) 1 exState_WF rfl exState_find
  exact ⟨p3, h1, h5, h6⟩

/-! ## Change-set Diff lemmas -/

theorem sectionTest_obj (osec : List (String × Json)) (kv : String × Json) :
    sectionTest (.obj osec) kv =
      .ok (match lookupKey osec kv.1 with
           | none => true
           | some ov => !pyEq kv.2 ov) := by
  unfold sectionTest
  cases hl : lookupKey osec kv.1 with
  | none =>
    have hna : osec.any (fun kv2 => kv2.1 == kv.1) = false := by
      rw [any_key_eq_lookup_isSome, hl]
      rfl
    rw [show pyContains (Json.obj osec) kv.1 = .ok false from by
      show Except.ok (osec.any fun kv2 => kv2.1 == kv.1) = .ok false
      rw [hna]]
    rfl
  | some ov =>
    have hna : osec.any (fun kv2 => kv2.1 == kv.1) = true := by
      rw [any_key_eq_lookup_isSome, hl]
      rfl
    rw [show pyContains (Json.obj osec) kv.1 = .ok true from by
      show Except.ok (osec.any fun kv2 => kv2.1 == kv.1) = .ok true
      rw [hna]]
    rw [pySubscript_obj_of_lookup _ _ _ hl]
    rfl

theorem exceptFilter_sectionTest (osec : List (String × Json)) :
    ∀ nsec : List (String × Json),
    exceptFilter (sectionTest (.obj osec)) nsec = .ok (specSectionDiff osec nsec) := by
  intro nsec
  induction nsec with
  | nil => rfl
  | cons kv rest ih =>
    show (do
      let b ← sectionTest (.obj osec) kv
      let rest2 ← exceptFilter (sectionTest (.obj osec)) rest
      pure (if b then kv :: rest2 else rest2)) = _
    rw [sectionTest_obj, ih]
    unfold specSectionDiff
    rw [List.filter_cons]
    cases hl : lookupKey osec kv.1 with
    | none => rfl
    | some ov => cases hpe : pyEq kv.2 ov <;> rfl

theorem sectionDiff_obj (osec nsec : List (String × Json)) :
    sectionDiff (.obj osec) (.obj nsec) = .ok (.obj (specSectionDiff osec nsec)) := by
  show (do
    let pairs ← exceptFilter (sectionTest (.obj osec)) nsec
    pure (Json.obj pairs)) = _
  rw [exceptFilter_sectionTest]
  rfl

theorem categoryUpdate_obj (okvs nkvs : List (String × Json)) (c : String)
    (hsn : ∀ v, lookupKey nkvs c = some v → v.isObj = true)
    (hso : ∀ v, lookupKey okvs c = some v → v.isObj = true) :
    categoryUpdate (Json.obj okvs) (Json.obj nkvs) c =
      .ok (match lookupKey nkvs c, lookupKey okvs c with
           | some (.obj nsec), some (.obj osec) =>
             if pyEq (.obj nsec) (.obj osec) then none
             else some (c, Json.obj (specSectionDiff osec nsec))
           | _, _ => none) := by
  unfold categoryUpdate
  cases hn : lookupKey nkvs c with
  | none =>
    have hna : nkvs.any (fun kv => kv.1 == c) = false := by
      rw [any_key_eq_lookup_isSome, hn]
      rfl
    rw [show pyContains (Json.obj nkvs) c = .ok false from by
      show Except.ok (nkvs.any fun kv => kv.1 == c) = .ok false
      rw [hna]]
    rfl
  | some nv =>
    obtain ⟨nsec, rfl⟩ : ∃ nsec, nv = Json.obj nsec := by
      have h4 := hsn nv hn
      cases nv with
      | obj nsec => exact ⟨nsec, rfl⟩
      | null => simp [Json.isObj] at h4
      | bool b => simp [Json.isObj] at h4
      | num n => simp [Json.isObj] at h4
      | str s => simp [Json.isObj] at h4
      | arr xs => simp [Json.isObj] at h4
    have hna : nkvs.any (fun kv => kv.1 == c) = true := by
      rw [any_key_eq_lookup_isSome, hn]
      rfl
    rw [show pyContains (Json.obj nkvs) c = .ok true from by
      show Except.ok (nkvs.any fun kv => kv.1 == c) = .ok true
      rw [hna]]
    cases ho : lookupKey okvs c with
    | none =>
      have hoa : okvs.any (fun kv => kv.1 == c) = false := by
        rw [any_key_eq_lookup_isSome, ho]
        rfl
      rw [show pyContains (Json.obj okvs) c = .ok false from by
        show Except.ok (okvs.any fun kv => kv.1 == c) = .ok false
        rw [hoa]]
      rfl
    | some ov =>
      obtain ⟨osec, rfl⟩ : ∃ osec, ov = Json.obj osec := by
        have h4 := hso ov ho
        cases ov with
        | obj osec => exact ⟨osec, rfl⟩
        | null => simp [Json.isObj] at h4
        | bool b => simp [Json.isObj] at h4
        | num n => simp [Json.isObj] at h4
        | str s => simp [Json.isObj] at h4
        | arr xs => simp [Json.isObj] at h4
      have hoa : okvs.any (fun kv => kv.1 == c) = true := by
        rw [any_key_eq_lookup_isSome, ho]
        rfl
      rw [show pyContains (Json.obj okvs) c = .ok true from by
        show Except.ok (okvs.any fun kv => kv.1 == c) = .ok true
        rw [hoa]]
      rw [pySubscript_obj_of_lookup _ _ _ hn, pySubscript_obj_of_lookup _ _ _ ho]
      have hshape : ∀ z : Except PyErr (Option (String × Json)),
          (if pyEq (Json.obj nsec) (Json.obj osec) = true then
            (pure none : Except PyErr (Option (String × Json)))
          else do
            let d ← sectionDiff (Json.obj osec) (Json.obj nsec)
            pure (some (c, d))) = z →
          (do
            let inNew ← (Except.ok true : Except PyErr Bool)
            if (!inNew) = true then pure none
            else do
              let inOld ← (Except.ok true : Except PyErr Bool)
              if (!inOld) = true then pure none
              else do
                let nv ← (Except.ok (Json.obj nsec) : Except PyErr Json)
                let ov ← (Except.ok (Json.obj osec) : Except PyErr Json)
                if pyEq nv ov = true then pure none
                else do
                  let d ← sectionDiff ov nv
                  pure (some (c, d))) = z := fun z hz => hz
      apply hshape
      have hmif : (match some (Json.obj nsec), some (Json.obj osec) with
           | some (.obj nsec), some (.obj osec) =>
             if pyEq (.obj nsec) (.obj osec) = true then none
             else some (c, Json.obj (specSectionDiff osec nsec))
           | _, _ => (none : Option (String × Json))) =
          (if pyEq (Json.obj nsec) (Json.obj osec) = true then none
           else some (c, Json.obj (specSectionDiff osec nsec))) := rfl
      cases hpe : pyEq (Json.obj nsec) (Json.obj osec) with
      | true =>
        rw [hmif, hpe]
        rfl
      | false =>
        rw [hmif, hpe]
        rw [show (do
            let d ← sectionDiff (Json.obj osec) (Json.obj nsec)
            pure (some (c, d)) : Except PyErr (Option (String × Json))) =
          .ok (some (c, Json.obj (specSectionDiff osec nsec))) from by
            rw [sectionDiff_obj]
            rfl]
        rfl

theorem exceptFilterMap_categoryUpdate (okvs nkvs : List (String × Json))
    (cs : List String)
    (hsn : ∀ c v, c ∈ cs → lookupKey nkvs c = some v → v.isObj = true)
    (hso : ∀ c v, c ∈ cs → lookupKey okvs c = some v → v.isObj = true) :
    exceptFilterMap (categoryUpdate (Json.obj okvs) (Json.obj nkvs)) cs =
      .ok (specUpdatesOn okvs nkvs cs) := by
  induction cs with
  | nil => rfl
  | cons c rest ih =>
    have hstep := categoryUpdate_obj okvs nkvs c
      (fun v hv => hsn c v (by simp) hv) (fun v hv => hso c v (by simp) hv)
    have hcs : (match lookupKey nkvs c, lookupKey okvs c with
           | some (.obj nsec), some (.obj osec) =>
             if pyEq (.obj nsec) (.obj osec) then none
             else some (c, Json.obj (specSectionDiff osec nsec))
           | _, _ => (none : Option (String × Json))) =
        specCategoryChange okvs nkvs c := rfl
    have hcons : specUpdatesOn okvs nkvs (c :: rest) =
        (match specCategoryChange okvs nkvs c with
         | some b => b :: specUpdatesOn okvs nkvs rest
         | none => specUpdatesOn okvs nkvs rest) := by
      show (c :: rest).filterMap (specCategoryChange okvs nkvs) = _
      rw [List.filterMap_cons]
      cases specCategoryChange okvs nkvs c <;> rfl
    simp only [exceptFilterMap]
    rw [hstep, ih (fun c2 v hc hv => hsn c2 v (by simp [hc]) hv)
        (fun c2 v hc hv => hso c2 v (by simp [hc]) hv), hcs, hcons]
    generalize specCategoryChange okvs nkvs c = z
    cases z <;> rfl

/-- C8: for a non-empty old record and a new record whose compared sections
are mappings, the change-set is exactly: the categories (in fixed order)
present in both records whose new value differs by structural equality,
each bound to the mapping of exactly those new-section keys whose value is
absent from, or different in, the old section; unchanged or missing
sections are absent from the report. -/
theorem get_updated_fields_spec (okvs nkvs : List (String × Json))
    (hne : okvs ≠ [])
    (hsn : ∀ c v, c ∈ categories → lookupKey nkvs c = some v → v.isObj = true)
    (hso : ∀ c v, c ∈ categories → lookupKey okvs c = some v → v.isObj = true) :
    get_updated_fields (.obj okvs) (.obj nkvs) =
      .ok (.obj (specUpdatesOn okvs nkvs categories)) := by
  unfold get_updated_fields
  rw [show (!(Json.obj okvs).truthy) = false from by simp [Json.truthy, hne]]
  rw [exceptFilterMap_categoryUpdate okvs nkvs categories hsn hso]
  rfl

theorem get_updated_fields_spec_witness :
    get_updated_fields (.obj oldRecKvs) (.obj newRecKvs) =
      .ok (.obj (specUpdatesOn oldRecKvs newRecKvs categories)) ∧
    specUpdatesOn oldRecKvs newRecKvs categories =
      [("personal_information", .obj [("last_name", .str "B")])] := by
  constructor
  · refine get_updated_fields_spec oldRecKvs newRecKvs (by simp [oldRecKvs]) ?_ ?_
    · intro c v hc hv
      simp [categories] at hc
      rcases hc with rfl | rfl | rfl <;>
        (simp [newRecKvs, lookupKey, List.find?] at hv; subst hv; rfl)
    · intro c v hc hv
      simp [categories] at hc
      rcases hc with rfl | rfl | rfl <;>
        (simp [oldRecKvs, lookupKey, List.find?] at hv; subst hv; rfl)
  · have h1 : pyEq (.obj []) (.obj []) = true := by simp [pyEq, pyEqFields]
    have h2 : pyEq (.obj [("last_name", .str "B")]) (.obj [("last_name", .str "A")]) = false := by
      simp [pyEq, pyEqFields, lookupKey, List.find?]
    simp [specUpdatesOn, specCategoryChange, categories, oldRecKvs, newRecKvs, lookupKey,
      List.find?, specSectionDiff, h1, h2, pyEq]
